import Mathlib

/-!
Verification of the MCMC density-control strategy (`mcmc.cpp` / `mcmc.hpp`)
of the gaussian-splatting trainer.

The embedding models each tensor as a Lean `List` of rows (one row per
Gaussian), float arithmetic as real arithmetic (the one place where the
spec-level behaviour depends on binary32 rounding — the `1.05f * current_n`
growth target — is modelled bit-exactly over `ℕ`), randomness (the
multinomial sampler) as an oracle argument, and the external `gsplat`
relocation kernel as an oracle function argument.
-/

namespace GSMCMC

/-! ## Constants from mcmc.cpp / mcmc.hpp -/

/-- `MIN_OPACITY_CLAMP = 1e-7f` (mcmc.cpp anonymous namespace). -/
noncomputable def MIN_OPACITY_CLAMP : ℝ := 1e-7

/-- `NOISE_K = 100.0f` (mcmc.cpp anonymous namespace). -/
noncomputable def NOISE_K : ℝ := 100

/-- `NOISE_X0 = 0.995f` (mcmc.cpp anonymous namespace). -/
noncomputable def NOISE_X0 : ℝ := 0.995

/-- `NOISE_LR = 5e5f` (mcmc.hpp). -/
noncomputable def NOISE_LR : ℝ := 5e5

/-- `BINOMIAL_MAX_N = 51` (mcmc.hpp). -/
def BINOMIAL_MAX_N : ℕ := 51

/-! ## Real-valued activation functions

Modelled from the spec: the model stores `opacity_raw` in logit space
(actual opacity = sigmoid(opacity_raw)) and `scale_raw` in log space
(actual scale = exp(scale_raw)); the `SplatData` accessors `get_opacity`
and `get_scaling` apply these activations. -/

/-- The logistic sigmoid, the opacity activation. -/
noncomputable def sigmoid (x : ℝ) : ℝ := 1 / (1 + Real.exp (-x))

/-- The logit (inverse sigmoid), used by `update_opacity_raw` via `torch::logit`. -/
noncomputable def logit (p : ℝ) : ℝ := Real.log (p / (1 - p))

/-- `torch::clamp(x, lo, hi)` = `min (max x lo) hi`. -/
noncomputable def clampR (x lo hi : ℝ) : ℝ := min (max x lo) hi

theorem sigmoid_pos (x : ℝ) : 0 < sigmoid x := by
  have h := Real.exp_pos (-x)
  unfold sigmoid
  positivity

theorem sigmoid_lt_one (x : ℝ) : sigmoid x < 1 := by
  have h := Real.exp_pos (-x)
  unfold sigmoid
  rw [div_lt_one (by linarith)]
  linarith

theorem sigmoid_logit (p : ℝ) (h0 : 0 < p) (h1 : p < 1) : sigmoid (logit p) = p := by
  unfold sigmoid logit
  have h1' : 0 < 1 - p := by linarith
  have hq : 0 < p / (1 - p) := div_pos h0 h1'
  rw [show -Real.log (p / (1 - p)) = Real.log ((p / (1 - p))⁻¹) by
        rw [Real.log_inv],
      Real.exp_log (by positivity)]
  field_simp

/-! ## List-level tensor operations -/

/-- `t.index_select(0, idxs)`: gather rows at positions `idxs`; out-of-range
indices (which torch would reject) yield the default `d`. -/
def indexSelect {α : Type} (l : List α) (idxs : List ℕ) (d : α) : List α :=
  idxs.map (fun i => l.getD i d)

/-- `t.index_put_({idxs}, vals)`: write row `vals[j]` at position `idxs[j]`,
left to right.  Out-of-range indices are ignored (torch would reject them). -/
def indexPut {α : Type} (l : List α) (idxs : List ℕ) (vals : List α) : List α :=
  (idxs.zip vals).foldl (fun acc p => acc.set p.1 p.2) l

/-- `t.index_put_({idxs}, 0)` with a scalar: zero exactly the rows in `idxs`. -/
def zeroAtIndices {α : Type} (zero : α) (idxs : List ℕ) (l : List α) : List α :=
  List.zipWith (fun i x => if i ∈ idxs then zero else x) (List.range l.length) l

theorem length_foldl_set {α : Type} (ps : List (ℕ × α)) (l : List α) :
    (ps.foldl (fun acc p => acc.set p.1 p.2) l).length = l.length := by
  induction ps generalizing l with
  | nil => rfl
  | cons p ps ih => simp [List.foldl_cons, ih, List.length_set]

theorem length_indexPut {α : Type} (l : List α) (idxs : List ℕ) (vals : List α) :
    (indexPut l idxs vals).length = l.length :=
  length_foldl_set _ _

theorem length_indexSelect {α : Type} (l : List α) (idxs : List ℕ) (d : α) :
    (indexSelect l idxs d).length = idxs.length := by
  simp [indexSelect]

theorem length_zeroAtIndices {α : Type} (zero : α) (idxs : List ℕ) (l : List α) :
    (zeroAtIndices zero idxs l).length = l.length := by
  simp [zeroAtIndices]

theorem getD_foldl_set_notMem {α : Type} (ps : List (ℕ × α)) (l : List α) (i : ℕ) (d : α)
    (h : ∀ p ∈ ps, p.1 ≠ i) :
    (ps.foldl (fun acc p => acc.set p.1 p.2) l).getD i d = l.getD i d := by
  induction ps generalizing l with
  | nil => rfl
  | cons p ps ih =>
    have hp : p.1 ≠ i := h p (by simp)
    rw [List.foldl_cons, ih _ (fun q hq => h q (by simp [hq]))]
    simp [List.getD, List.getElem?_set_ne hp]

theorem getD_indexPut_notMem {α : Type} (l : List α) (idxs : List ℕ) (vals : List α)
    (i : ℕ) (d : α) (h : i ∉ idxs) :
    (indexPut l idxs vals).getD i d = l.getD i d := by
  apply getD_foldl_set_notMem
  intro p hp hpi
  exact h (by
    have := List.of_mem_zip hp
    simpa [hpi] using this.1)

/-- Values present after a fold of writes: every position holds either its old
value or one of the written values. -/
theorem getD_foldl_set_mem_or {α : Type} (ps : List (ℕ × α)) (l : List α) (i : ℕ) (d : α) :
    (ps.foldl (fun acc p => acc.set p.1 p.2) l).getD i d = l.getD i d ∨
      ∃ p ∈ ps, (ps.foldl (fun acc p => acc.set p.1 p.2) l).getD i d = p.2 := by
  induction ps generalizing l with
  | nil => exact Or.inl rfl
  | cons p ps ih =>
    rw [List.foldl_cons]
    rcases ih (l.set p.1 p.2) with h | ⟨q, hq, hval⟩
    · rw [h]
      by_cases hpi : p.1 = i
      · subst hpi
        by_cases hlt : p.1 < l.length
        · refine Or.inr ⟨p, by simp, ?_⟩
          simp [List.getD, List.getElem?_set_self hlt]
        · left
          simp [List.getD, List.getElem?_set, hlt,
                List.getElem?_eq_none (le_of_not_lt hlt)]
      · left
        simp [List.getD, List.getElem?_set_ne hpi]
    · exact Or.inr ⟨q, by simp [hq], hval⟩

theorem getD_indexPut_mem_or {α : Type} (l : List α) (idxs : List ℕ) (vals : List α)
    (i : ℕ) (d : α) :
    (indexPut l idxs vals).getD i d = l.getD i d ∨
      ∃ v ∈ vals, (indexPut l idxs vals).getD i d = v := by
  rcases getD_foldl_set_mem_or (idxs.zip vals) l i d with h | ⟨p, hp, hval⟩
  · exact Or.inl h
  · exact Or.inr ⟨p.2, (List.of_mem_zip hp).2, hval⟩

/-- Writing at pairwise-distinct indices: position `idxs[j]` ends up holding
`vals[j]`. -/
theorem getD_foldl_set_nodup {α : Type} (ps : List (ℕ × α)) (l : List α) (d : α)
    (hnd : (ps.map Prod.fst).Nodup) (j : ℕ) (hj : j < ps.length)
    (hlt : (ps.get ⟨j, hj⟩).1 < l.length) :
    (ps.foldl (fun acc p => acc.set p.1 p.2) l).getD (ps.get ⟨j, hj⟩).1 d
      = (ps.get ⟨j, hj⟩).2 := by
  induction ps generalizing l j with
  | nil => exact absurd hj (by simp)
  | cons p ps ih =>
    have hnd' : p.1 ∉ ps.map Prod.fst ∧ (ps.map Prod.fst).Nodup := by
      rw [List.map_cons, List.nodup_cons] at hnd
      exact hnd
    rw [List.foldl_cons]
    rcases j with _ | j
    · simp only [List.get]
      have hnotin : ∀ q ∈ ps, q.1 ≠ p.1 := by
        intro q hq hc
        exact hnd'.1 (hc ▸ (List.mem_map.mpr ⟨q, hq, rfl⟩))
      rw [getD_foldl_set_notMem _ _ _ _ hnotin]
      simp [List.getD, List.getElem?_set_self (by simpa using hlt)]
    · have hj' : j < ps.length := by simpa using hj
      have := ih (l.set p.1 p.2) hnd'.2 j hj' (by simpa using hlt)
      simpa using this

/-! ## Bit-exact model of `static_cast<int>(1.05f * current_n)`

`add_new_gs` computes the growth target as `static_cast<int>(1.05f * current_n)`:
the int is converted to binary32, multiplied by the binary32 constant `1.05f`
(whose significand is `8808038 / 2^23`), the product rounded to nearest-even
binary32, and the result truncated toward zero.  All quantities involved are
positive and far from overflow/underflow, so the computation reduces to
rounding integers to 24 significant bits. -/

/-- Number of binary digits of `n` (fuel-driven so that it kernel-reduces). -/
def bitsAux (fuel n : ℕ) : ℕ :=
  match fuel with
  | 0 => 0
  | fuel + 1 => if n = 0 then 0 else bitsAux fuel (n / 2) + 1

/-- Number of binary digits; 64 bits of fuel covers every value occurring here. -/
def bitLen (n : ℕ) : ℕ := bitsAux 64 n

/-- Round a natural number to 24 significant binary digits, ties to even
(IEEE-754 round-to-nearest-even of the value `K × 2^e` for any fixed `e`). -/
def rne24 (K : ℕ) : ℕ :=
  let b := bitLen K
  if b ≤ 24 then K
  else
    let s := b - 24
    let q := K / 2 ^ s
    let r := K % 2 ^ s
    let half := 2 ^ (s - 1)
    let m := if half < r then q + 1 else if r < half then q else if q % 2 = 0 then q else q + 1
    m * 2 ^ s

/-- `static_cast<int>(1.05f * n)` for a nonnegative int `n`:
convert `n` to binary32, multiply by `1.05f = 8808038 × 2⁻²³` with
round-to-nearest-even, truncate toward zero. -/
def truncF32Mul105 (n : ℕ) : ℕ := rne24 (8808038 * rne24 n) / 2 ^ 23

/-- `n_target = std::min(max_cap, static_cast<int>(1.05f * current_n))` and
`n_new = std::max(0, n_target - current_n)` (mcmc.cpp, `MCMC::add_new_gs`). -/
def nNewOf (max_cap : ℤ) (current_n : ℕ) : ℕ :=
  (max 0 (min max_cap (truncF32Mul105 current_n : ℤ) - current_n)).toNat

/-! ## Data model

Modelled from the spec: `SplatData` (the model parameter store) is an external
collaborator whose definition is not part of this subsystem's sources; per the
spec it is a struct-of-arrays with one row per splat — `position` (3 floats),
`color_dc`/`color_rest` (color-basis coefficient blocks, row types abstract
here), `scale_raw` (3 floats, log space), `rotation_raw` (4 floats),
`opacity_raw` (1 float, logit space) — with accessors `get_opacity`
(= sigmoid of `opacity_raw`), `get_scaling` (= exp of `scale_raw`) and `size`
(the common leading dimension). -/

structure SplatData (S0 SN : Type) where
  means : List (Fin 3 → ℝ)
  sh0 : List S0
  shN : List SN
  scaling_raw : List (Fin 3 → ℝ)
  rotation_raw : List (Fin 4 → ℝ)
  opacity_raw : List ℝ

/-- Modelled from the spec: activated opacity = sigmoid of the raw value
(the `normalize_opacity_shape` squeeze in mcmc.cpp is the identity here since
opacity rows are modelled as scalars). -/
noncomputable def SplatData.get_opacity {S0 SN : Type} (sd : SplatData S0 SN) : List ℝ :=
  sd.opacity_raw.map sigmoid

/-- Modelled from the spec: activated scale = componentwise exp of the raw value. -/
noncomputable def SplatData.get_scaling {S0 SN : Type} (sd : SplatData S0 SN) :
    List (Fin 3 → ℝ) :=
  sd.scaling_raw.map (fun r i => Real.exp (r i))

/-- Modelled from the spec: the current population count (leading dimension). -/
def SplatData.size {S0 SN : Type} (sd : SplatData S0 SN) : ℕ := sd.means.length

/-- All six parallel fields share leading dimension `n`. -/
def SplatData.alignedAt {S0 SN : Type} (sd : SplatData S0 SN) (n : ℕ) : Prop :=
  sd.means.length = n ∧ sd.sh0.length = n ∧ sd.shN.length = n ∧
    sd.scaling_raw.length = n ∧ sd.rotation_raw.length = n ∧ sd.opacity_raw.length = n

/-- `torch::optim::AdamParamState`: step counter, first and second moment
buffers, and the optional amsgrad max-second-moment buffer. -/
structure AdamParamState (α : Type) where
  step : ℕ
  exp_avg : List α
  exp_avg_sq : List α
  max_exp_avg_sq : Option (List α)

/-- The Adam optimizer as visible to this subsystem: six parameter groups in
the fixed order means, sh0, shN, scaling, rotation, opacity (mcmc.cpp
`MCMC::initialize`), each with a learning rate, an epsilon and an optional
per-parameter moment state.  The parameter tensor of group `i` is the
corresponding model field itself (shared storage), so it is not duplicated
here. -/
structure Optimizer (S0 SN : Type) where
  lrs : Fin 6 → ℝ
  eps : Fin 6 → ℝ
  stMeans : Option (AdamParamState (Fin 3 → ℝ))
  stSh0 : Option (AdamParamState S0)
  stShN : Option (AdamParamState SN)
  stScaling : Option (AdamParamState (Fin 3 → ℝ))
  stRotation : Option (AdamParamState (Fin 4 → ℝ))
  stOpacity : Option (AdamParamState ℝ)

/-- The configuration struct fields this subsystem reads
(`gs::param::OptimizationParameters`). -/
structure OptimizationParameters where
  min_opacity : ℝ
  max_cap : ℤ
  start_refine : ℤ
  stop_refine : ℤ
  refine_every : ℤ
  iterations : ℤ
  means_lr : ℝ
  shs_lr : ℝ
  scaling_lr : ℝ
  rotation_lr : ℝ
  opacity_lr : ℝ

/-- The mutable state of the MCMC strategy: the model, the (optional, i.e.
possibly not yet initialized) optimizer, the binomial-table side length
(`_binoms.size(0)`; the table contents are consumed only by the external
`gsplat::relocation` kernel) and the configuration. -/
structure MCMCState (S0 SN : Type) where
  splat : SplatData S0 SN
  opt : Option (Optimizer S0 SN)
  binomsSize : ℕ
  params : OptimizationParameters

/-! ## mcmc.cpp anonymous-namespace helpers -/

/-- `calculate_relocation_ratios` (mcmc.cpp): a zero vector of length `n`
(the opacity count) accumulates one per occurrence of each sampled index
(`index_add_`), the counts are gathered back at the sampled positions
(`index_select`), incremented, and clamped to `[1, n_max]`. -/
def calculate_relocation_ratios (sampled : List ℕ) (n n_max : ℕ) : List ℕ :=
  let counts := (List.range n).map (fun i => sampled.count i)
  let gathered := sampled.map (fun i => counts.getD i 0 + 1)
  gathered.map (fun r => min (max r 1) n_max)

/-- `update_opacity_raw` (mcmc.cpp): clamp the new opacities to
`[min_opacity, 1 - MIN_OPACITY_CLAMP]` and write their logits at `indices`
(both the 1-D and the squeezed 2-D branch reduce to this on scalar rows). -/
noncomputable def update_opacity_raw (opacity_raw : List ℝ) (indices : List ℕ)
    (new_opacities : List ℝ) (min_opacity : ℝ) : List ℝ :=
  let clamped := new_opacities.map (fun x => clampR x min_opacity (1 - MIN_OPACITY_CLAMP))
  indexPut opacity_raw indices (clamped.map logit)

/-- `reset_adam_state_at_indices` applied to one state object: zero the moment
buffers (and the amsgrad buffer when present) at exactly `indices`, leaving
the step counter alone. -/
def resetAdamStateAt {α : Type} (zero : α) (indices : List ℕ)
    (st : AdamParamState α) : AdamParamState α :=
  { step := st.step
    exp_avg := zeroAtIndices zero indices st.exp_avg
    exp_avg_sq := zeroAtIndices zero indices st.exp_avg_sq
    max_exp_avg_sq := st.max_exp_avg_sq.map (zeroAtIndices zero indices) }

/-- `extend_adam_state` (mcmc.cpp): new state = old moment buffers each
concatenated with `n_new` zero rows, step counter preserved, amsgrad buffer
extended only if present. -/
def extend_adam_state {α : Type} (old : AdamParamState α) (zero : α) (n_new : ℕ) :
    AdamParamState α :=
  { step := old.step
    exp_avg := old.exp_avg ++ List.replicate n_new zero
    exp_avg_sq := old.exp_avg_sq ++ List.replicate n_new zero
    max_exp_avg_sq := old.max_exp_avg_sq.map (· ++ List.replicate n_new zero) }

/-! ## Dead/alive masks (mcmc.cpp, `MCMC::relocate_gs`) -/

/-- Indices where the activated opacity is `<= min_opacity`
(`dead_mask.nonzero()`, which lists hits in increasing order). -/
noncomputable def deadIndices (opacities : List ℝ) (min_opacity : ℝ) : List ℕ :=
  (List.range opacities.length).filter
    (fun i => decide (opacities.getD i 0 ≤ min_opacity))

/-- Indices of the complementary mask (`alive_mask = ~dead_mask`). -/
noncomputable def aliveIndices (opacities : List ℝ) (min_opacity : ℝ) : List ℕ :=
  (List.range opacities.length).filter
    (fun i => decide (¬ opacities.getD i 0 ≤ min_opacity))

/-- Shape of the external `gsplat::relocation` kernel as this subsystem calls
it: sampled opacities, sampled scales and replication ratios in, new opacities
and new scales out (the binomial table and its side length are additional
inputs of the real kernel; they are fixed per `MCMCState`, so an oracle of
this type may capture them). -/
def RelocFn : Type :=
  List ℝ → List (Fin 3 → ℝ) → List ℕ → List ℝ × List (Fin 3 → ℝ)

/-! ## `MCMC::relocate_gs`

The multinomial draw (`sampled_idxs_local`, indices into `alive_indices`) is
an oracle argument: the code draws it at random, and every claim under
verification holds for every draw.  The external relocation kernel is the
oracle `reloc`. -/

noncomputable def relocate_gs {S0 SN : Type} [Zero S0] [Zero SN] [Inhabited S0] [Inhabited SN]
    (st : MCMCState S0 SN) (sampledLocal : List ℕ) (reloc : RelocFn) :
    ℕ × MCMCState S0 SN :=
  let opacities := st.splat.get_opacity
  let dead := deadIndices opacities st.params.min_opacity
  if dead.isEmpty then (0, st)
  else
    let alive := aliveIndices opacities st.params.min_opacity
    if alive.isEmpty then (0, st)
    else
      let sampled := indexSelect alive sampledLocal 0
      let ratios := calculate_relocation_ratios sampled opacities.length st.binomsSize
      let out := reloc (indexSelect opacities sampled 0)
        (indexSelect st.splat.get_scaling sampled default) ratios
      let opacity1 := update_opacity_raw st.splat.opacity_raw sampled out.1
        st.params.min_opacity
      let scaling1 := indexPut st.splat.scaling_raw sampled
        (out.2.map (fun v j => Real.log (v j)))
      let splat1 : SplatData S0 SN :=
        { means := indexPut st.splat.means dead (indexSelect st.splat.means sampled default)
          sh0 := indexPut st.splat.sh0 dead (indexSelect st.splat.sh0 sampled default)
          shN := indexPut st.splat.shN dead (indexSelect st.splat.shN sampled default)
          scaling_raw := indexPut scaling1 dead (indexSelect scaling1 sampled default)
          rotation_raw := indexPut st.splat.rotation_raw dead
            (indexSelect st.splat.rotation_raw sampled default)
          opacity_raw := indexPut opacity1 dead (indexSelect opacity1 sampled default) }
      let opt1 := st.opt.map (fun o =>
        { o with
          stMeans := o.stMeans.map (resetAdamStateAt 0 sampled)
          stSh0 := o.stSh0.map (resetAdamStateAt 0 sampled)
          stShN := o.stShN.map (resetAdamStateAt 0 sampled)
          stScaling := o.stScaling.map (resetAdamStateAt 0 sampled)
          stRotation := o.stRotation.map (resetAdamStateAt 0 sampled)
          stOpacity := o.stOpacity.map (resetAdamStateAt 0 sampled) })
      (dead.length, { st with splat := splat1, opt := opt1 })

/-! ## `MCMC::add_new_gs`

The multinomial draw over the full population (`sampled_idxs`) is an oracle
argument; the relocation kernel is the oracle `reloc`.  The third component of
the result records whether the "optimizer not initialized" warning was
emitted to stderr. -/

noncomputable def add_new_gs {S0 SN : Type} [Zero S0] [Zero SN] [Inhabited S0] [Inhabited SN]
    (st : MCMCState S0 SN) (sampled : List ℕ) (reloc : RelocFn) :
    ℕ × MCMCState S0 SN × Bool :=
  match st.opt with
  | none => (0, st, true)
  | some o =>
    let current_n := st.splat.size
    let n_new := nNewOf st.params.max_cap current_n
    if n_new = 0 then (0, st, false)
    else
      let opacities := st.splat.get_opacity
      let ratios := calculate_relocation_ratios sampled opacities.length st.binomsSize
      let out := reloc (indexSelect opacities sampled 0)
        (indexSelect st.splat.get_scaling sampled default) ratios
      let opacity1 := update_opacity_raw st.splat.opacity_raw sampled out.1
        st.params.min_opacity
      let scaling1 := indexPut st.splat.scaling_raw sampled
        (out.2.map (fun v j => Real.log (v j)))
      let splat1 : SplatData S0 SN :=
        { means := st.splat.means ++ indexSelect st.splat.means sampled default
          sh0 := st.splat.sh0 ++ indexSelect st.splat.sh0 sampled default
          shN := st.splat.shN ++ indexSelect st.splat.shN sampled default
          scaling_raw := scaling1 ++ indexSelect scaling1 sampled default
          rotation_raw := st.splat.rotation_raw ++
            indexSelect st.splat.rotation_raw sampled default
          opacity_raw := opacity1 ++ indexSelect opacity1 sampled default }
      let o1 : Optimizer S0 SN :=
        { o with
          stMeans := o.stMeans.map (fun s => extend_adam_state s 0 n_new)
          stSh0 := o.stSh0.map (fun s => extend_adam_state s 0 n_new)
          stShN := o.stShN.map (fun s => extend_adam_state s 0 n_new)
          stScaling := o.stScaling.map (fun s => extend_adam_state s 0 n_new)
          stRotation := o.stRotation.map (fun s => extend_adam_state s 0 n_new)
          stOpacity := o.stOpacity.map (fun s => extend_adam_state s 0 n_new) }
      (n_new, { st with splat := splat1, opt := some o1 }, false)

/-! ## `MCMC::inject_noise`

The standard-normal draw (`torch::randn_like(means)`) and the covariance
matrices produced by the external `gsplat::quat_scale_to_covar_preci_fwd`
routine from the current rotations and scales are oracle arguments. -/

noncomputable def inject_noise {S0 SN : Type} (st : MCMCState S0 SN)
    (noise : List (Fin 3 → ℝ)) (covars : List (Matrix (Fin 3) (Fin 3) ℝ)) :
    MCMCState S0 SN :=
  match st.opt with
  | none => st
  | some o =>
    let opacities := st.splat.get_opacity
    let op_sigmoid := opacities.map
      (fun op => 1 / (1 + Real.exp (-(NOISE_K * ((1 - op) - NOISE_X0)))))
    let current_lr := o.lrs 0
    let scaled := List.zipWith
      (fun nr w => fun c => nr c * w * current_lr * NOISE_LR) noise op_sigmoid
    let transformed := List.zipWith (fun A v => A.mulVec v) covars scaled
    { st with splat :=
        { st.splat with means := List.zipWith (fun m t => m + t) st.splat.means transformed } }

/-! ## Scheduler, initialization, refinement gate -/

/-- `MCMC::ExponentialLR`: gamma and the index of the one parameter group it
decays. -/
structure ExponentialLR where
  gamma : ℝ
  param_group_index : ℕ

/-- `MCMC::ExponentialLR::step()`: multiply the learning rate of parameter
group `param_group_index` by `gamma`; every other group is untouched. -/
noncomputable def ExponentialLR.lrStep (sched : ExponentialLR) (lrs : Fin 6 → ℝ) :
    Fin 6 → ℝ :=
  fun i => if (i : ℕ) = sched.param_group_index then lrs i * sched.gamma else lrs i

/-- Default `torch::optim::AdamOptions` epsilon before `MCMC::initialize`
overwrites it. -/
noncomputable def ADAM_DEFAULT_EPS : ℝ := 1e-8

/-- The six parameter groups built by `MCMC::initialize`, in order
(means, sh0, shN, scaling, rotation, opacity), as (learning rate, epsilon)
pairs: each group is first constructed with `AdamOptions(lr)` (default
epsilon), then the loop `for (auto& g : groups) ... eps(1e-15)` overwrites
every epsilon. -/
noncomputable def buildParamGroups (p : OptimizationParameters) (scene_scale : ℝ) :
    List (ℝ × ℝ) :=
  let groups : List (ℝ × ℝ) :=
    [(p.means_lr * scene_scale, ADAM_DEFAULT_EPS),
     (p.shs_lr, ADAM_DEFAULT_EPS),
     (p.shs_lr / 20, ADAM_DEFAULT_EPS),
     (p.scaling_lr, ADAM_DEFAULT_EPS),
     (p.rotation_lr, ADAM_DEFAULT_EPS),
     (p.opacity_lr, ADAM_DEFAULT_EPS)]
  groups.map (fun g => (g.1, 1e-15))

/-- `MCMC::initialize`: install the configuration, build the optimizer over
the six groups (no moment state yet) and the exponential scheduler with
`gamma = pow(0.01, 1.0 / iterations)` targeting parameter group 0.
`scene_scale` stands for `_splat_data.get_scene_scale()`. -/
noncomputable def mcmcInit {S0 SN : Type} (splat : SplatData S0 SN)
    (p : OptimizationParameters) (scene_scale : ℝ) :
    MCMCState S0 SN × ExponentialLR :=
  let gs := buildParamGroups p scene_scale
  let o : Optimizer S0 SN :=
    { lrs := fun i => (gs.getD i (0, 0)).1
      eps := fun i => (gs.getD i (0, 0)).2
      stMeans := none
      stSh0 := none
      stShN := none
      stScaling := none
      stRotation := none
      stOpacity := none }
  ({ splat := splat, opt := some o, binomsSize := BINOMIAL_MAX_N, params := p },
   { gamma := (0.01 : ℝ) ^ ((1 : ℝ) / (p.iterations : ℝ)), param_group_index := 0 })

/-- `MCMC::is_refining`: `iter < stop_refine && iter > start_refine &&
iter % refine_every == 0`, with the C++ truncated remainder. -/
def is_refining (p : OptimizationParameters) (iter : ℤ) : Bool :=
  decide (iter < p.stop_refine) && decide (iter > p.start_refine) &&
    decide (Int.tmod iter p.refine_every = 0)

/-! ## Further helper lemmas on the list-level tensor ops -/

theorem getD_default_irrel {α : Type} (l : List α) (i : ℕ) (hi : i < l.length) (d d' : α) :
    l.getD i d = l.getD i d' := by
  simp [List.getD, List.getElem?_eq_getElem hi]

theorem getD_map {α β : Type} (f : α → β) (l : List α) (i : ℕ) (hi : i < l.length)
    (d : β) (d' : α) : (l.map f).getD i d = f (l.getD i d') := by
  simp [List.getD, List.getElem?_map, List.getElem?_eq_getElem hi]

theorem getD_indexSelect {α : Type} (l : List α) (idxs : List ℕ) (d : α) (j : ℕ)
    (hj : j < idxs.length) (d' : α) :
    (indexSelect l idxs d).getD j d' = l.getD (idxs.getD j 0) d := by
  simp [indexSelect, List.getD, List.getElem?_map, List.getElem?_eq_getElem hj]
  try rfl

theorem getD_indexPut_nodup {α : Type} (l : List α) (idxs : List ℕ) (vals : List α)
    (hnd : idxs.Nodup) (hlen : idxs.length ≤ vals.length) (j : ℕ) (hj : j < idxs.length)
    (hlt : idxs.getD j 0 < l.length) (d : α) :
    (indexPut l idxs vals).getD (idxs.getD j 0) d = vals.getD j d := by
  have hzlen : (idxs.zip vals).length = idxs.length := by
    simp [List.length_zip, Nat.min_eq_left hlen]
  have hj' : j < (idxs.zip vals).length := by omega
  have hfst : ((idxs.zip vals).get ⟨j, hj'⟩).1 = idxs.getD j 0 := by
    simp [List.getElem_zip, List.getD, List.getElem?_eq_getElem hj]
  have hsnd : ((idxs.zip vals).get ⟨j, hj'⟩).2 = vals.getD j d := by
    have hjv : j < vals.length := lt_of_lt_of_le hj hlen
    simp [List.getElem_zip, List.getD, List.getElem?_eq_getElem hjv]
  have hmap : (idxs.zip vals).map Prod.fst = idxs := List.map_fst_zip _ _ hlen
  have := getD_foldl_set_nodup (idxs.zip vals) l d (by rw [hmap]; exact hnd) j hj'
    (by rw [hfst]; exact hlt)
  rw [hfst, hsnd] at this
  exact this

/-! ## C9 -/

/-- C9: `is_refining(iter)` returns true iff `start_refine < iter < stop_refine`
and `iter % refine_every == 0` (truncated remainder, as in C++); it is a pure
function of its arguments, so calling it twice with the same `iter` returns
the same result and mutates no state. -/
theorem C9_is_refining (p : OptimizationParameters) (iter : ℤ) :
    (is_refining p iter = true ↔
      p.start_refine < iter ∧ iter < p.stop_refine ∧ Int.tmod iter p.refine_every = 0) ∧
    is_refining p iter = is_refining p iter := by
  refine ⟨?_, rfl⟩
  simp only [is_refining, Bool.and_eq_true, decide_eq_true_eq, gt_iff_lt]
  try tauto

/-! ## C10 -/

/-- C10: `initialize` derives both color-group learning rates from the single
configured `shs_lr`: group 1 (sh0 / color_dc) gets `shs_lr`, group 2
(shN / color_rest) gets `shs_lr / 20`; group 0 (position) gets
`means_lr × scene_scale`; groups 3, 4, 5 get `scaling_lr`, `rotation_lr`,
`opacity_lr`; and every one of the six groups is given Adam epsilon `1e-15`. -/
theorem C10_group_learning_rates {S0 SN : Type} (splat : SplatData S0 SN)
    (p : OptimizationParameters) (scene_scale : ℝ) :
    ∃ o : Optimizer S0 SN, (mcmcInit splat p scene_scale).1.opt = some o ∧
      o.lrs 0 = p.means_lr * scene_scale ∧
      o.lrs 1 = p.shs_lr ∧
      o.lrs 2 = p.shs_lr / 20 ∧
      o.lrs 3 = p.scaling_lr ∧
      o.lrs 4 = p.rotation_lr ∧
      o.lrs 5 = p.opacity_lr ∧
      (∀ i : Fin 6, o.eps i = 1e-15) := by
  refine ⟨_, rfl, ?_, ?_, ?_, ?_, ?_, ?_, ?_⟩ <;>
    first
      | (intro i
         fin_cases i <;>
           simp [mcmcInit, buildParamGroups, List.getD,
                 show ((0 : Fin 6) : ℕ) = 0 from rfl, show ((1 : Fin 6) : ℕ) = 1 from rfl,
                 show ((2 : Fin 6) : ℕ) = 2 from rfl, show ((3 : Fin 6) : ℕ) = 3 from rfl,
                 show ((4 : Fin 6) : ℕ) = 4 from rfl, show ((5 : Fin 6) : ℕ) = 5 from rfl])
      | simp [mcmcInit, buildParamGroups, List.getD,
              show ((0 : Fin 6) : ℕ) = 0 from rfl, show ((1 : Fin 6) : ℕ) = 1 from rfl,
              show ((2 : Fin 6) : ℕ) = 2 from rfl, show ((3 : Fin 6) : ℕ) = 3 from rfl,
              show ((4 : Fin 6) : ℕ) = 4 from rfl, show ((5 : Fin 6) : ℕ) = 5 from rfl]

/-! ## C3 (corrected) -/

/-- C3 counterexample: the claim computes the growth target as
`round(1.05 × current_N)`, giving `n_new = max(0, min(110, round(105)) − 100)
= 5` at `current_N = 100`, `max_cap = 110`.  The code computes
`static_cast<int>(1.05f * current_n)`: the binary32 constant `1.05f` is
`8808038/2^23 < 1.05`, the rounded binary32 product `1.05f × 100` is
`104.99999237…`, and truncation toward zero gives a target of 104, so
`n_new = 4`, not 5. -/
theorem C3_counterexample :
    truncF32Mul105 100 = 104 ∧ nNewOf 110 100 = 4 ∧ nNewOf 110 100 ≠ 5 := by
  refine ⟨?_, ?_, ?_⟩ <;> decide

/-- C3 (amended): in `add_new_gs` the number of appended elements is
`n_new = max(0, min(max_cap, t) − current_N)` where `t` is the binary32
product `1.05f × current_N` (round to nearest, ties to even) truncated toward
zero — not `round(1.05 × current_N)`; in particular with `current_N = 100`
and `max_cap = 110`, `n_new = 4` and the model's leading dimension becomes
104. -/
theorem C3_growth_target {S0 SN : Type} [Zero S0] [Zero SN] [Inhabited S0] [Inhabited SN]
    (st : MCMCState S0 SN) (o : Optimizer S0 SN) (sampled : List ℕ) (reloc : RelocFn)
    (hopt : st.opt = some o) :
    (add_new_gs st sampled reloc).1 = nNewOf st.params.max_cap st.splat.size ∧
    (∀ (cap : ℤ) (n : ℕ),
      nNewOf cap n = (max 0 (min cap (truncF32Mul105 n : ℤ) - (n : ℤ))).toNat) ∧
    nNewOf 110 100 = 4 ∧
    (st.params.max_cap = 110 → st.splat.size = 100 → sampled.length = 4 →
      (add_new_gs st sampled reloc).2.1.splat.means.length = 104) := by
  obtain ⟨splat, opt, bs, pars⟩ := st
  simp only [MCMCState.opt] at hopt
  subst hopt
  refine ⟨?_, fun cap n => rfl, by decide, ?_⟩
  · simp only [add_new_gs]
    split
    · case isTrue h => simp [h]
    · rfl
  · intro hcap hsize hslen
    simp only [MCMCState.params, MCMCState.splat] at hcap hsize ⊢
    simp only [add_new_gs, hcap, hsize]
    have h4 : nNewOf 110 100 = 4 := by decide
    rw [h4]
    simp only [if_neg (by norm_num : (4 : ℕ) ≠ 0)]
    simp only [SplatData.size] at hsize
    simp [length_indexSelect, hsize, hslen]

/-- Witness for C3: the amended growth formula evaluated on a concrete
100-row model with `max_cap = 110`. -/
noncomputable def wSplat100 : SplatData ℝ ℝ :=
  { means := List.replicate 100 0
    sh0 := List.replicate 100 0
    shN := List.replicate 100 0
    scaling_raw := List.replicate 100 0
    rotation_raw := List.replicate 100 0
    opacity_raw := List.replicate 100 0 }

noncomputable def wOpt : Optimizer ℝ ℝ :=
  { lrs := fun _ => 0
    eps := fun _ => 0
    stMeans := none
    stSh0 := none
    stShN := none
    stScaling := none
    stRotation := none
    stOpacity := none }

noncomputable def wParams : OptimizationParameters :=
  { min_opacity := 5 / 1000
    max_cap := 110
    start_refine := 500
    stop_refine := 25000
    refine_every := 100
    iterations := 1000
    means_lr := 1
    shs_lr := 1
    scaling_lr := 1
    rotation_lr := 1
    opacity_lr := 1 }

noncomputable def wState100 : MCMCState ℝ ℝ :=
  { splat := wSplat100
    opt := some wOpt
    binomsSize := BINOMIAL_MAX_N
    params := wParams }

/-- Trivial relocation oracle used by witnesses. -/
noncomputable def wReloc : RelocFn := fun _ _ _ => ([], [])

theorem C3_growth_target_witness :
    (add_new_gs wState100 [0, 0, 0, 0] wReloc).1 = nNewOf 110 100 ∧
    nNewOf 110 100 = 4 ∧
    (add_new_gs wState100 [0, 0, 0, 0] wReloc).2.1.splat.means.length = 104 := by
  have h := C3_growth_target wState100 wOpt [0, 0, 0, 0] wReloc rfl
  have hsize : wState100.splat.size = 100 := by
    simp [wState100, wSplat100, SplatData.size]
  refine ⟨?_, h.2.2.1, h.2.2.2 rfl hsize rfl⟩
  have := h.1
  rw [this, hsize]
  rfl

/-! ## C4 (corrected) -/

/-- C4 counterexample: the claim requires replication ratios clamped to
`[1, cap-1]` with `cap` the binomial table's side length (51).  With a
sampled-index vector containing 51 repetitions of one index, the code's ratio
is `min(51 + 1, 51) = 51`, which lies outside `[1, 50]` (the claimed clamp
would give 50). -/
theorem C4_counterexample :
    (calculate_relocation_ratios (List.replicate 51 0) 1 51).getD 0 0 = 51 ∧
    ¬ (calculate_relocation_ratios (List.replicate 51 0) 1 51).getD 0 0 ≤ 51 - 1 := by
  refine ⟨?_, ?_⟩ <;> decide

/-- C4 (amended): in both `relocate_gs` and `add_new_gs` (which call
`calculate_relocation_ratios` with `n_max = _binoms.size(0) = cap`), the
replication ratio at position `j` equals the number of occurrences of
`sampled_idxs[j]` in the whole sampled-index vector, plus one, clamped to
`[1, cap]` — the code's upper clamp bound is the table side length `cap`
itself, not `cap − 1`. -/
theorem C4_replication_ratios (sampled : List ℕ) (n cap : ℕ) (hcap : 1 ≤ cap)
    (hval : ∀ i ∈ sampled, i < n) (j : ℕ) (hj : j < sampled.length) :
    (calculate_relocation_ratios sampled n cap).getD j 0
        = min (sampled.count (sampled.getD j 0) + 1) cap ∧
    1 ≤ (calculate_relocation_ratios sampled n cap).getD j 0 ∧
    (calculate_relocation_ratios sampled n cap).getD j 0 ≤ cap := by
  have hsj : sampled.getD j 0 ∈ sampled := by
    have : sampled.getD j 0 = sampled.get ⟨j, hj⟩ := by
      simp [List.getD, List.getElem?_eq_getElem hj]
    rw [this]
    exact List.get_mem _ _ _
  have hsjn : sampled.getD j 0 < n := hval _ hsj
  have hcounts : ((List.range n).map (fun i => sampled.count i)).getD (sampled.getD j 0) 0
      = sampled.count (sampled.getD j 0) := by
    rw [getD_map _ _ _ (by simpa using hsjn) 0 0]
    rw [show (List.range n).getD (sampled.getD j 0) 0 = sampled.getD j 0 from by
          have h2 : sampled[j]?.getD 0 < n := by simpa [List.getD] using hsjn
          simp [List.getD, List.getElem?_range h2]]
  have hmain : (calculate_relocation_ratios sampled n cap).getD j 0
      = min (sampled.count (sampled.getD j 0) + 1) cap := by
    unfold calculate_relocation_ratios
    rw [List.map_map, getD_map _ _ _ (by simpa using hj) 0 0]
    simp only [Function.comp]
    rw [hcounts]
    omega
  refine ⟨hmain, ?_, ?_⟩ <;> rw [hmain] <;> omega

theorem C4_replication_ratios_witness :
    (calculate_relocation_ratios [0, 0, 1] 3 51).getD 0 0
        = min ([0, 0, 1].count ([0, 0, 1].getD 0 0) + 1) 51 ∧
    1 ≤ (calculate_relocation_ratios [0, 0, 1] 3 51).getD 0 0 ∧
    (calculate_relocation_ratios [0, 0, 1] 3 51).getD 0 0 ≤ 51 :=
  C4_replication_ratios [0, 0, 1] 3 51 (by decide) (by decide) 0 (by decide)

/-! ## Case-analysis helpers for the two refinement operations -/

/-- Length of every splat field is preserved by `relocate_gs`, in both the
no-op and the relocation branch (in-place writes never resize). -/
theorem relocate_gs_lengths {S0 SN : Type} [Zero S0] [Zero SN] [Inhabited S0] [Inhabited SN]
    (st : MCMCState S0 SN) (sampledLocal : List ℕ) (reloc : RelocFn) :
    (relocate_gs st sampledLocal reloc).2.splat.means.length = st.splat.means.length ∧
    (relocate_gs st sampledLocal reloc).2.splat.sh0.length = st.splat.sh0.length ∧
    (relocate_gs st sampledLocal reloc).2.splat.shN.length = st.splat.shN.length ∧
    (relocate_gs st sampledLocal reloc).2.splat.scaling_raw.length
        = st.splat.scaling_raw.length ∧
    (relocate_gs st sampledLocal reloc).2.splat.rotation_raw.length
        = st.splat.rotation_raw.length ∧
    (relocate_gs st sampledLocal reloc).2.splat.opacity_raw.length
        = st.splat.opacity_raw.length := by
  by_cases hdead : (deadIndices st.splat.get_opacity st.params.min_opacity).isEmpty
  · simp [relocate_gs, hdead]
  · by_cases halive : (aliveIndices st.splat.get_opacity st.params.min_opacity).isEmpty
    · simp [relocate_gs, hdead, halive]
    · simp [relocate_gs, hdead, halive, length_indexPut, update_opacity_raw]

/-- The optimizer after `relocate_gs` is either untouched (no-op branches) or
the original with every present group state reset at some index list. -/
theorem relocate_gs_opt {S0 SN : Type} [Zero S0] [Zero SN] [Inhabited S0] [Inhabited SN]
    (st : MCMCState S0 SN) (sampledLocal : List ℕ) (reloc : RelocFn) :
    (relocate_gs st sampledLocal reloc).2.opt = st.opt ∨
    ∃ idxs : List ℕ, (relocate_gs st sampledLocal reloc).2.opt = st.opt.map (fun o =>
      { o with
        stMeans := o.stMeans.map (resetAdamStateAt 0 idxs)
        stSh0 := o.stSh0.map (resetAdamStateAt 0 idxs)
        stShN := o.stShN.map (resetAdamStateAt 0 idxs)
        stScaling := o.stScaling.map (resetAdamStateAt 0 idxs)
        stRotation := o.stRotation.map (resetAdamStateAt 0 idxs)
        stOpacity := o.stOpacity.map (resetAdamStateAt 0 idxs) }) := by
  by_cases hdead : (deadIndices st.splat.get_opacity st.params.min_opacity).isEmpty
  · left
    simp [relocate_gs, hdead]
  · by_cases halive : (aliveIndices st.splat.get_opacity st.params.min_opacity).isEmpty
    · left
      simp [relocate_gs, hdead, halive]
    · right
      refine ⟨indexSelect (aliveIndices st.splat.get_opacity st.params.min_opacity)
        sampledLocal 0, ?_⟩
      simp [relocate_gs, hdead, halive]

/-- `relocate_gs` returns the dead count and leaves the configuration and
binomial table alone. -/
theorem relocate_gs_frame {S0 SN : Type} [Zero S0] [Zero SN] [Inhabited S0] [Inhabited SN]
    (st : MCMCState S0 SN) (sampledLocal : List ℕ) (reloc : RelocFn) :
    (relocate_gs st sampledLocal reloc).2.params = st.params ∧
    (relocate_gs st sampledLocal reloc).2.binomsSize = st.binomsSize := by
  by_cases hdead : (deadIndices st.splat.get_opacity st.params.min_opacity).isEmpty
  · simp [relocate_gs, hdead]
  · by_cases halive : (aliveIndices st.splat.get_opacity st.params.min_opacity).isEmpty
    · simp [relocate_gs, hdead, halive]
    · simp [relocate_gs, hdead, halive]

/-- Full case analysis of `add_new_gs`: either a no-op returning 0, or the
grow branch, whose return value is the computed `n_new`, whose fields each
gain `sampled.length` rows, and whose optimizer states are the old ones
extended with `n_new` zero rows. -/
theorem add_new_gs_cases {S0 SN : Type} [Zero S0] [Zero SN] [Inhabited S0] [Inhabited SN]
    (st : MCMCState S0 SN) (sampled : List ℕ) (reloc : RelocFn) :
    ((st.opt = none ∨ nNewOf st.params.max_cap st.splat.size = 0) ∧
      (add_new_gs st sampled reloc).2.1 = st ∧ (add_new_gs st sampled reloc).1 = 0) ∨
    ∃ o : Optimizer S0 SN, st.opt = some o ∧
      (add_new_gs st sampled reloc).1 = nNewOf st.params.max_cap st.splat.size ∧
      (add_new_gs st sampled reloc).1 ≠ 0 ∧
      (add_new_gs st sampled reloc).2.1.splat.means.length
          = st.splat.means.length + sampled.length ∧
      (add_new_gs st sampled reloc).2.1.splat.sh0.length
          = st.splat.sh0.length + sampled.length ∧
      (add_new_gs st sampled reloc).2.1.splat.shN.length
          = st.splat.shN.length + sampled.length ∧
      (add_new_gs st sampled reloc).2.1.splat.scaling_raw.length
          = st.splat.scaling_raw.length + sampled.length ∧
      (add_new_gs st sampled reloc).2.1.splat.rotation_raw.length
          = st.splat.rotation_raw.length + sampled.length ∧
      (add_new_gs st sampled reloc).2.1.splat.opacity_raw.length
          = st.splat.opacity_raw.length + sampled.length ∧
      (add_new_gs st sampled reloc).2.1.opt = some
        { o with
          stMeans := o.stMeans.map
            (fun s => extend_adam_state s 0 (nNewOf st.params.max_cap st.splat.size))
          stSh0 := o.stSh0.map
            (fun s => extend_adam_state s 0 (nNewOf st.params.max_cap st.splat.size))
          stShN := o.stShN.map
            (fun s => extend_adam_state s 0 (nNewOf st.params.max_cap st.splat.size))
          stScaling := o.stScaling.map
            (fun s => extend_adam_state s 0 (nNewOf st.params.max_cap st.splat.size))
          stRotation := o.stRotation.map
            (fun s => extend_adam_state s 0 (nNewOf st.params.max_cap st.splat.size))
          stOpacity := o.stOpacity.map
            (fun s => extend_adam_state s 0 (nNewOf st.params.max_cap st.splat.size)) } ∧
      (add_new_gs st sampled reloc).2.1.params = st.params := by
  obtain ⟨splat, opt, bs, pars⟩ := st
  cases opt with
  | none => exact Or.inl ⟨Or.inl rfl, rfl, rfl⟩
  | some o =>
    by_cases h : nNewOf pars.max_cap splat.size = 0
    · left
      refine ⟨Or.inr h, ?_, ?_⟩ <;> simp [add_new_gs, h]
    · right
      refine ⟨o, rfl, ?_⟩
      simp [add_new_gs, h, length_indexPut, length_indexSelect, update_opacity_raw]

/-! ## C1 -/

/-- C1: all six model fields keep one common leading dimension N throughout:
`relocate_gs` (which overwrites dead rows in place) leaves every field's
leading dimension unchanged, and `add_new_gs` (given a sample of the length
it requests from the multinomial sampler, namely `n_new`) grows every one of
the six fields by exactly its return value. -/
theorem C1_field_alignment {S0 SN : Type} [Zero S0] [Zero SN] [Inhabited S0] [Inhabited SN]
    (st : MCMCState S0 SN) (sampledLocal sampled : List ℕ) (reloc : RelocFn) (N : ℕ)
    (halign : st.splat.alignedAt N) :
    (relocate_gs st sampledLocal reloc).2.splat.alignedAt N ∧
    (sampled.length = nNewOf st.params.max_cap st.splat.size →
      (add_new_gs st sampled reloc).2.1.splat.alignedAt
        (N + (add_new_gs st sampled reloc).1)) := by
  obtain ⟨h1, h2, h3, h4, h5, h6⟩ := halign
  constructor
  · obtain ⟨g1, g2, g3, g4, g5, g6⟩ := relocate_gs_lengths st sampledLocal reloc
    exact ⟨g1.trans h1, g2.trans h2, g3.trans h3, g4.trans h4, g5.trans h5, g6.trans h6⟩
  · intro hs
    rcases add_new_gs_cases st sampled reloc with ⟨_, hst, hret⟩ |
      ⟨o, _, hret, _, g1, g2, g3, g4, g5, g6, _, _⟩
    · rw [hst, hret]
      exact ⟨by omega, by omega, by omega, by omega, by omega, by omega⟩
    · rw [hret, ← hs]
      exact ⟨by omega, by omega, by omega, by omega, by omega, by omega⟩

/-! ## C5 -/

/-- C5: `relocate_gs` returns 0 and leaves the whole state unchanged when the
dead set is empty, and when the alive set is empty; `add_new_gs` returns 0
and mutates nothing when the computed `n_new` is 0 (which always holds when
`current_N >= max_cap`); and called before the optimizer exists it returns 0
without faulting, reporting the stderr warning (third result component). -/
theorem C5_noop_cases {S0 SN : Type} [Zero S0] [Zero SN] [Inhabited S0] [Inhabited SN]
    (st : MCMCState S0 SN) (sampledLocal sampled : List ℕ) (reloc : RelocFn) :
    (deadIndices st.splat.get_opacity st.params.min_opacity = [] →
      relocate_gs st sampledLocal reloc = (0, st)) ∧
    (aliveIndices st.splat.get_opacity st.params.min_opacity = [] →
      relocate_gs st sampledLocal reloc = (0, st)) ∧
    (st.opt = none → add_new_gs st sampled reloc = (0, st, true)) ∧
    (∀ o : Optimizer S0 SN, st.opt = some o →
      nNewOf st.params.max_cap st.splat.size = 0 →
      add_new_gs st sampled reloc = (0, st, false)) ∧
    (st.params.max_cap ≤ (st.splat.size : ℤ) →
      nNewOf st.params.max_cap st.splat.size = 0) := by
  refine ⟨?_, ?_, ?_, ?_, ?_⟩
  · intro h
    simp [relocate_gs, h]
  · intro h
    simp only [relocate_gs]
    split
    · rfl
    · simp [h]
  · intro h
    obtain ⟨splat, opt, bs, pars⟩ := st
    simp only [MCMCState.opt] at h
    subst h
    rfl
  · intro o h hn
    obtain ⟨splat, opt, bs, pars⟩ := st
    simp only [MCMCState.opt] at h
    simp only [MCMCState.params, MCMCState.splat] at hn
    subst h
    simp [add_new_gs, hn]
  · intro h
    unfold nNewOf
    have hmin : min st.params.max_cap (truncF32Mul105 st.splat.size : ℤ)
        ≤ (st.splat.size : ℤ) := le_trans (min_le_left _ _) h
    rw [max_eq_left (by omega)]
    rfl

/-! ## Witness states shared by several witnesses -/

noncomputable def wSplat20 : SplatData ℝ ℝ :=
  { means := List.replicate 20 0
    sh0 := List.replicate 20 0
    shN := List.replicate 20 0
    scaling_raw := List.replicate 20 0
    rotation_raw := List.replicate 20 0
    opacity_raw := List.replicate 20 0 }

noncomputable def wSplatEmpty : SplatData ℝ ℝ :=
  { means := []
    sh0 := []
    shN := []
    scaling_raw := []
    rotation_raw := []
    opacity_raw := [] }

noncomputable def wParamsCap20 : OptimizationParameters :=
  { wParams with max_cap := 20 }

noncomputable def wStateEmpty : MCMCState ℝ ℝ :=
  { splat := wSplatEmpty
    opt := none
    binomsSize := BINOMIAL_MAX_N
    params := wParams }

noncomputable def wStateCap20 : MCMCState ℝ ℝ :=
  { splat := wSplat20
    opt := some wOpt
    binomsSize := BINOMIAL_MAX_N
    params := wParamsCap20 }

set_option maxRecDepth 8000 in
theorem C1_field_alignment_witness :
    (relocate_gs wState100 [] wReloc).2.splat.alignedAt 100 ∧
    (add_new_gs wState100 [0, 0, 0, 0] wReloc).2.1.splat.alignedAt
      (100 + (add_new_gs wState100 [0, 0, 0, 0] wReloc).1) := by
  have halign : wState100.splat.alignedAt 100 := by
    simp [wState100, wSplat100, SplatData.alignedAt]
  have h := C1_field_alignment wState100 [] [0, 0, 0, 0] wReloc 100 halign
  exact ⟨h.1, h.2 (by decide)⟩

set_option maxRecDepth 8000 in
theorem C5_noop_cases_witness :
    relocate_gs wStateEmpty [] wReloc = (0, wStateEmpty) ∧
    add_new_gs wStateEmpty [] wReloc = (0, wStateEmpty, true) ∧
    add_new_gs wStateCap20 [] wReloc = (0, wStateCap20, false) ∧
    nNewOf wStateCap20.params.max_cap wStateCap20.splat.size = 0 := by
  have h1 := C5_noop_cases wStateEmpty [] [] wReloc
  have h2 := C5_noop_cases wStateCap20 [] [] wReloc
  exact ⟨h1.1 rfl, h1.2.2.1 rfl, h2.2.2.2.1 wOpt rfl (by decide), h2.2.2.2.2 (by decide)⟩

/-! ## C2: optimizer/parameter alignment -/

/-- One parameter group is aligned: whenever moment state exists, each moment
buffer's leading dimension equals the parameter tensor's leading dimension. -/
def groupAligned {α : Type} (param : List α) (ost : Option (AdamParamState α)) : Prop :=
  ∀ s, ost = some s →
    s.exp_avg.length = param.length ∧ s.exp_avg_sq.length = param.length ∧
      ∀ m, s.max_exp_avg_sq = some m → m.length = param.length

/-- All six groups of the (possibly absent) optimizer are aligned with their
model fields. -/
def optAligned {S0 SN : Type} (st : MCMCState S0 SN) : Prop :=
  ∀ o : Optimizer S0 SN, st.opt = some o →
    groupAligned st.splat.means o.stMeans ∧
    groupAligned st.splat.sh0 o.stSh0 ∧
    groupAligned st.splat.shN o.stShN ∧
    groupAligned st.splat.scaling_raw o.stScaling ∧
    groupAligned st.splat.rotation_raw o.stRotation ∧
    groupAligned st.splat.opacity_raw o.stOpacity

/-- The new optional state is the old one with `n` zero rows appended to every
moment buffer and the step counter kept (absent stays absent). -/
def extendedBy {α : Type} (old new : Option (AdamParamState α)) (z : α) (n : ℕ) : Prop :=
  ∀ s, old = some s → new = some
    { step := s.step
      exp_avg := s.exp_avg ++ List.replicate n z
      exp_avg_sq := s.exp_avg_sq ++ List.replicate n z
      max_exp_avg_sq := s.max_exp_avg_sq.map (fun m => m ++ List.replicate n z) }

theorem groupAligned_of_length_eq {α : Type} {param param' : List α}
    {ost : Option (AdamParamState α)} (hlen : param'.length = param.length)
    (h : groupAligned param ost) : groupAligned param' ost := by
  intro s hs
  obtain ⟨h1, h2, h3⟩ := h s hs
  exact ⟨h1.trans hlen.symm, h2.trans hlen.symm,
    fun m hm => (h3 m hm).trans hlen.symm⟩

theorem groupAligned_reset {α : Type} {param param' : List α} (z : α) (idxs : List ℕ)
    {ost : Option (AdamParamState α)} (hlen : param'.length = param.length)
    (h : groupAligned param ost) :
    groupAligned param' (ost.map (resetAdamStateAt z idxs)) := by
  intro s hs
  cases ost with
  | none => simp at hs
  | some s0 =>
    obtain ⟨h1, h2, h3⟩ := h s0 rfl
    simp only [Option.map_some', Option.some.injEq] at hs
    subst hs
    refine ⟨?_, ?_, ?_⟩
    · simp [resetAdamStateAt, length_zeroAtIndices, h1, hlen]
    · simp [resetAdamStateAt, length_zeroAtIndices, h2, hlen]
    · intro m hm
      simp only [resetAdamStateAt] at hm
      cases hmax : s0.max_exp_avg_sq with
      | none => rw [hmax] at hm; simp at hm
      | some m0 =>
        rw [hmax] at hm
        simp only [Option.map_some', Option.some.injEq] at hm
        subst hm
        simp [length_zeroAtIndices, h3 m0 hmax, hlen]

theorem groupAligned_extend {α : Type} {param param' : List α} (z : α) (n : ℕ)
    {ost : Option (AdamParamState α)} (hlen : param'.length = param.length + n)
    (h : groupAligned param ost) :
    groupAligned param' (ost.map (fun s => extend_adam_state s z n)) := by
  intro s hs
  cases ost with
  | none => simp at hs
  | some s0 =>
    obtain ⟨h1, h2, h3⟩ := h s0 rfl
    simp only [Option.map_some', Option.some.injEq] at hs
    subst hs
    refine ⟨?_, ?_, ?_⟩
    · simp [extend_adam_state, h1, hlen]
    · simp [extend_adam_state, h2, hlen]
    · intro m hm
      simp only [extend_adam_state] at hm
      cases hmax : s0.max_exp_avg_sq with
      | none => rw [hmax] at hm; simp at hm
      | some m0 =>
        rw [hmax] at hm
        simp only [Option.map_some', Option.some.injEq] at hm
        subst hm
        simp [h3 m0 hmax, hlen]

/-- C2: whenever Adam moment state exists for a group, its moment tensors'
leading dimension equals the parameter tensor's leading dimension; this is
preserved by `relocate_gs` (index-wise zeroing, no resize) and by
`add_new_gs` (given a sample of the length it requests); and in the grow
branch every present group state is replaced by the old buffers concatenated
with `n_new` zero rows, step counter preserved, re-keyed to the new parameter
(here: still attached to its group, whose parameter is the concatenation). -/
theorem C2_optimizer_alignment {S0 SN : Type} [Zero S0] [Zero SN] [Inhabited S0] [Inhabited SN]
    (st : MCMCState S0 SN) (sampledLocal sampled : List ℕ) (reloc : RelocFn)
    (halign : optAligned st) :
    optAligned (relocate_gs st sampledLocal reloc).2 ∧
    (sampled.length = nNewOf st.params.max_cap st.splat.size →
      optAligned (add_new_gs st sampled reloc).2.1) ∧
    (∀ o : Optimizer S0 SN, st.opt = some o → (add_new_gs st sampled reloc).1 ≠ 0 →
      ∃ o' : Optimizer S0 SN, (add_new_gs st sampled reloc).2.1.opt = some o' ∧
        extendedBy o.stMeans o'.stMeans 0 (add_new_gs st sampled reloc).1 ∧
        extendedBy o.stSh0 o'.stSh0 0 (add_new_gs st sampled reloc).1 ∧
        extendedBy o.stShN o'.stShN 0 (add_new_gs st sampled reloc).1 ∧
        extendedBy o.stScaling o'.stScaling 0 (add_new_gs st sampled reloc).1 ∧
        extendedBy o.stRotation o'.stRotation 0 (add_new_gs st sampled reloc).1 ∧
        extendedBy o.stOpacity o'.stOpacity 0 (add_new_gs st sampled reloc).1) := by
  refine ⟨?_, ?_, ?_⟩
  · obtain ⟨g1, g2, g3, g4, g5, g6⟩ := relocate_gs_lengths st sampledLocal reloc
    rcases relocate_gs_opt st sampledLocal reloc with hopt | ⟨idxs, hopt⟩
    · intro o' ho'
      obtain ⟨h1, h2, h3, h4, h5, h6⟩ := halign o' (hopt ▸ ho')
      exact ⟨groupAligned_of_length_eq g1 h1, groupAligned_of_length_eq g2 h2,
        groupAligned_of_length_eq g3 h3, groupAligned_of_length_eq g4 h4,
        groupAligned_of_length_eq g5 h5, groupAligned_of_length_eq g6 h6⟩
    · intro o' ho'
      rw [hopt] at ho'
      cases hst : st.opt with
      | none => rw [hst] at ho'; simp at ho'
      | some o0 =>
        rw [hst] at ho'
        simp only [Option.map_some', Option.some.injEq] at ho'
        subst ho'
        obtain ⟨h1, h2, h3, h4, h5, h6⟩ := halign o0 hst
        exact ⟨groupAligned_reset 0 idxs g1 h1, groupAligned_reset 0 idxs g2 h2,
          groupAligned_reset 0 idxs g3 h3, groupAligned_reset 0 idxs g4 h4,
          groupAligned_reset 0 idxs g5 h5, groupAligned_reset 0 idxs g6 h6⟩
  · intro hs
    rcases add_new_gs_cases st sampled reloc with ⟨_, hst, _⟩ |
      ⟨o, hopt, hret, _, g1, g2, g3, g4, g5, g6, hopt', _⟩
    · rw [hst]
      exact halign
    · intro o' ho'
      rw [hopt'] at ho'
      simp only [Option.some.injEq] at ho'
      subst ho'
      obtain ⟨h1, h2, h3, h4, h5, h6⟩ := halign o hopt
      rw [hs] at g1 g2 g3 g4 g5 g6
      exact ⟨groupAligned_extend 0 _ g1 h1, groupAligned_extend 0 _ g2 h2,
        groupAligned_extend 0 _ g3 h3, groupAligned_extend 0 _ g4 h4,
        groupAligned_extend 0 _ g5 h5, groupAligned_extend 0 _ g6 h6⟩
  · intro o ho hne
    rcases add_new_gs_cases st sampled reloc with ⟨_, _, hret⟩ |
      ⟨o0, hopt, hret, _, _, _, _, _, _, _, hopt', _⟩
    · exact absurd hret hne
    · have hoo : o0 = o := by
        rw [ho] at hopt
        exact (Option.some.injEq _ _ ▸ hopt).symm
      subst hoo
      refine ⟨_, hopt', ?_, ?_, ?_, ?_, ?_, ?_⟩ <;>
        · intro s hsome
          rw [hret]
          simp [hsome, extend_adam_state]

noncomputable def wAdamV3 : AdamParamState (Fin 3 → ℝ) :=
  { step := 3
    exp_avg := List.replicate 20 0
    exp_avg_sq := List.replicate 20 0
    max_exp_avg_sq := none }

noncomputable def wAdamR : AdamParamState ℝ :=
  { step := 7
    exp_avg := List.replicate 20 0
    exp_avg_sq := List.replicate 20 0
    max_exp_avg_sq := some (List.replicate 20 0) }

noncomputable def wOptSt : Optimizer ℝ ℝ :=
  { lrs := fun _ => 1
    eps := fun _ => 1e-15
    stMeans := some wAdamV3
    stSh0 := none
    stShN := none
    stScaling := none
    stRotation := none
    stOpacity := some wAdamR }

noncomputable def wStateOpt : MCMCState ℝ ℝ :=
  { splat := wSplat20
    opt := some wOptSt
    binomsSize := BINOMIAL_MAX_N
    params := wParams }

theorem wStateOpt_aligned : optAligned wStateOpt := by
  intro o ho
  have ho' : o = wOptSt := by simpa [wStateOpt] using ho.symm
  subst ho'
  refine ⟨?_, ?_, ?_, ?_, ?_, ?_⟩
  · intro s hs
    have hsv : s = wAdamV3 := by simpa [wOptSt] using hs.symm
    subst hsv
    refine ⟨by simp [wAdamV3, wStateOpt, wSplat20], by simp [wAdamV3, wStateOpt, wSplat20], ?_⟩
    intro m hm
    simp [wAdamV3] at hm
  · intro s hs
    simp [wOptSt] at hs
  · intro s hs
    simp [wOptSt] at hs
  · intro s hs
    simp [wOptSt] at hs
  · intro s hs
    simp [wOptSt] at hs
  · intro s hs
    have hsv : s = wAdamR := by simpa [wOptSt] using hs.symm
    subst hsv
    refine ⟨by simp [wAdamR, wStateOpt, wSplat20], by simp [wAdamR, wStateOpt, wSplat20], ?_⟩
    intro m hm
    have hmv : m = List.replicate 20 0 := by simpa [wAdamR] using hm.symm
    subst hmv
    simp [wStateOpt, wSplat20]

set_option maxRecDepth 8000 in
theorem C2_optimizer_alignment_witness :
    optAligned (relocate_gs wStateOpt [] wReloc).2 ∧
    optAligned (add_new_gs wStateOpt [0] wReloc).2.1 ∧
    ∃ o' : Optimizer ℝ ℝ, (add_new_gs wStateOpt [0] wReloc).2.1.opt = some o' ∧
      extendedBy wOptSt.stMeans o'.stMeans 0 (add_new_gs wStateOpt [0] wReloc).1 ∧
      extendedBy wOptSt.stSh0 o'.stSh0 0 (add_new_gs wStateOpt [0] wReloc).1 ∧
      extendedBy wOptSt.stShN o'.stShN 0 (add_new_gs wStateOpt [0] wReloc).1 ∧
      extendedBy wOptSt.stScaling o'.stScaling 0 (add_new_gs wStateOpt [0] wReloc).1 ∧
      extendedBy wOptSt.stRotation o'.stRotation 0 (add_new_gs wStateOpt [0] wReloc).1 ∧
      extendedBy wOptSt.stOpacity o'.stOpacity 0 (add_new_gs wStateOpt [0] wReloc).1 := by
  have h := C2_optimizer_alignment wStateOpt [] [0] wReloc wStateOpt_aligned
  exact ⟨h.1, h.2.1 (by decide), h.2.2 wOptSt rfl (by decide)⟩

/-! ## C6: scheduler decay -/

theorem lrStep_iterate (g : ℝ) (idx : ℕ) (lrs : Fin 6 → ℝ) (k : ℕ) (i : Fin 6) :
    ((ExponentialLR.lrStep ⟨g, idx⟩)^[k] lrs) i
      = if (i : ℕ) = idx then lrs i * g ^ k else lrs i := by
  induction k with
  | zero => simp
  | succ k ih =>
    rw [Function.iterate_succ_apply']
    by_cases hi : (i : ℕ) = idx
    · simp [ExponentialLR.lrStep, hi, ih, pow_succ, mul_assoc]
    · simp [ExponentialLR.lrStep, hi, ih]

/-- C6: `initialize` computes `gamma = 0.01^(1/iterations)` once and the
scheduler it builds targets parameter group 0 (the position group); each
scheduler step multiplies only group 0's learning rate by gamma, so after `k`
steps the position learning rate is `initial_lr × gamma^k` and the other five
groups' rates are unchanged; with `iterations = 1000`, after 1000 steps the
position rate is exactly `initial_lr × 0.01` (real-arithmetic model of the
float computation, so the claim's "within floating-point tolerance" holds
with zero error). -/
theorem C6_scheduler_decay {S0 SN : Type} (splat : SplatData S0 SN)
    (p : OptimizationParameters) (scene_scale : ℝ) (lrs : Fin 6 → ℝ) (k : ℕ) :
    (mcmcInit splat p scene_scale).2.gamma = (0.01 : ℝ) ^ ((1 : ℝ) / (p.iterations : ℝ)) ∧
    (mcmcInit splat p scene_scale).2.param_group_index = 0 ∧
    (((mcmcInit splat p scene_scale).2.lrStep^[k] lrs) 0
        = lrs 0 * (mcmcInit splat p scene_scale).2.gamma ^ k) ∧
    (∀ i : Fin 6, (i : ℕ) ≠ 0 →
      ((mcmcInit splat p scene_scale).2.lrStep^[k] lrs) i = lrs i) ∧
    (p.iterations = 1000 →
      ((mcmcInit splat p scene_scale).2.lrStep^[1000] lrs) 0 = lrs 0 * 0.01) := by
  have hsched : (mcmcInit splat p scene_scale).2
      = ⟨(0.01 : ℝ) ^ ((1 : ℝ) / (p.iterations : ℝ)), 0⟩ := rfl
  refine ⟨rfl, rfl, ?_, ?_, ?_⟩
  · rw [hsched, lrStep_iterate]
    simp
  · intro i hi
    rw [hsched, lrStep_iterate]
    simp [hi]
  · intro hit
    rw [hsched, lrStep_iterate]
    simp only [show ((0 : Fin 6) : ℕ) = 0 from rfl, if_pos rfl, if_true]
    congr 1
    rw [hit]
    rw [← Real.rpow_natCast ((0.01 : ℝ) ^ ((1 : ℝ) / ((1000 : ℤ) : ℝ))) 1000,
        ← Real.rpow_mul (by norm_num : (0 : ℝ) ≤ 0.01)]
    norm_num

theorem C6_scheduler_decay_witness :
    ((mcmcInit wSplat20 wParams 1).2.lrStep^[1000] (fun _ => 2)) 0 = 2 * 0.01 ∧
    ((mcmcInit wSplat20 wParams 1).2.lrStep^[1000] (fun _ => 2)) 1 = 2 := by
  have h := C6_scheduler_decay wSplat20 wParams 1 (fun _ => 2) 1000
  exact ⟨h.2.2.2.2 rfl, h.2.2.2.1 1 (by decide)⟩

/-! ## C8: noise injection -/

theorem getD_zipWith {α β γ : Type} (f : α → β → γ) (as : List α) (bs : List β) (j : ℕ)
    (ha : j < as.length) (hb : j < bs.length) (dc : γ) (da : α) (db : β) :
    (List.zipWith f as bs).getD j dc = f (as.getD j da) (bs.getD j db) := by
  induction as generalizing bs j with
  | nil => exact absurd ha (by simp)
  | cons a as ih =>
    cases bs with
    | nil => exact absurd hb (by simp)
    | cons b bs =>
      cases j with
      | zero => rfl
      | succ j =>
        have ha' : j < as.length := by simpa using ha
        have hb' : j < bs.length := by simpa using hb
        simpa [List.getD] using ih bs j ha' hb'

/-- C8: on every call, `inject_noise` computes the per-element weight
`sigmoid(NOISE_K × ((1 − opacity) − NOISE_X0))` (K = 100, X0 = 0.995) over
the activated opacities, scales the supplied standard-normal draw (shaped
like the position tensor) by `weight × current_learning_rate (group 0) ×
NOISE_LR (5e5)`, transforms it through each element's covariance matrix by a
batched matrix-vector product, and adds the result in place to the position
field; no other model field, the optimizer, or the configuration is modified
(the gradient-tracking guard `torch::NoGradGuard` is outside this functional
model). -/
theorem C8_inject_noise {S0 SN : Type} (st : MCMCState S0 SN) (o : Optimizer S0 SN)
    (noise : List (Fin 3 → ℝ)) (covars : List (Matrix (Fin 3) (Fin 3) ℝ))
    (hopt : st.opt = some o)
    (hn : noise.length = st.splat.means.length)
    (hc : covars.length = st.splat.means.length)
    (hop : st.splat.opacity_raw.length = st.splat.means.length) :
    (∀ j, j < st.splat.means.length →
      (inject_noise st noise covars).splat.means.getD j 0 =
        st.splat.means.getD j 0 +
          (covars.getD j 0).mulVec (fun c =>
            noise.getD j 0 c *
              sigmoid (NOISE_K * ((1 - sigmoid (st.splat.opacity_raw.getD j 0)) - NOISE_X0)) *
              o.lrs 0 * NOISE_LR)) ∧
    (inject_noise st noise covars).splat.means.length = st.splat.means.length ∧
    (inject_noise st noise covars).splat.sh0 = st.splat.sh0 ∧
    (inject_noise st noise covars).splat.shN = st.splat.shN ∧
    (inject_noise st noise covars).splat.scaling_raw = st.splat.scaling_raw ∧
    (inject_noise st noise covars).splat.rotation_raw = st.splat.rotation_raw ∧
    (inject_noise st noise covars).splat.opacity_raw = st.splat.opacity_raw ∧
    (inject_noise st noise covars).opt = st.opt ∧
    (inject_noise st noise covars).params = st.params := by
  obtain ⟨⟨means, msh0, mshN, mscal, mrot, mopac⟩, opt, bs, pars⟩ := st
  simp only [MCMCState.opt] at hopt
  subst hopt
  simp only [MCMCState.splat, SplatData.means, SplatData.opacity_raw] at hn hc hop ⊢
  have hsiglen : (List.map sigmoid mopac).length = means.length := by simpa using hop
  have hwlen :
      ((List.map sigmoid mopac).map
        (fun op => 1 / (1 + Real.exp (-(NOISE_K * ((1 - op) - NOISE_X0)))))).length
      = means.length := by simpa using hop
  have hscaledlen :
      (List.zipWith (fun nr w => fun c => nr c * w * (o.lrs 0) * NOISE_LR) noise
          ((List.map sigmoid mopac).map
            (fun op => 1 / (1 + Real.exp (-(NOISE_K * ((1 - op) - NOISE_X0))))) )).length
      = means.length := by
    rw [List.length_zipWith, hn, hwlen, Nat.min_self]
  have htranslen :
      (List.zipWith (fun A v => Matrix.mulVec A v) covars
          (List.zipWith (fun nr w => fun c => nr c * w * (o.lrs 0) * NOISE_LR) noise
            ((List.map sigmoid mopac).map
              (fun op => 1 / (1 + Real.exp (-(NOISE_K * ((1 - op) - NOISE_X0))))))) ).length
      = means.length := by
    rw [List.length_zipWith, hc, hscaledlen, Nat.min_self]
  refine ⟨?_, ?_, rfl, rfl, rfl, rfl, rfl, rfl, rfl⟩
  · intro j hj
    simp only [inject_noise, SplatData.get_opacity, MCMCState.splat, SplatData.means,
      SplatData.opacity_raw]
    rw [getD_zipWith (fun m t => m + t) means _ j hj (by rw [htranslen]; exact hj)
      (0 : Fin 3 → ℝ) (0 : Fin 3 → ℝ) (0 : Fin 3 → ℝ)]
    rw [getD_zipWith (fun A v => Matrix.mulVec A v) covars _ j (by rw [hc]; exact hj)
      (by rw [hscaledlen]; exact hj) (0 : Fin 3 → ℝ) (0 : Matrix (Fin 3) (Fin 3) ℝ)
      (0 : Fin 3 → ℝ)]
    rw [getD_zipWith (fun nr w => fun c => nr c * w * (o.lrs 0) * NOISE_LR) noise _ j
      (by rw [hn]; exact hj) (by rw [hwlen]; exact hj) (0 : Fin 3 → ℝ) (0 : Fin 3 → ℝ)
      (0 : ℝ)]
    rw [getD_map (fun op => 1 / (1 + Real.exp (-(NOISE_K * ((1 - op) - NOISE_X0)))))
      (List.map sigmoid mopac) j (by rw [hsiglen]; exact hj) (0 : ℝ) (0 : ℝ)]
    rw [getD_map sigmoid mopac j (by rw [hop]; exact hj) (0 : ℝ) (0 : ℝ)]
    rfl
  · simp [inject_noise, SplatData.get_opacity, List.length_zipWith, hn, hc, hop]

theorem C8_inject_noise_witness :
    (inject_noise wStateOpt (List.replicate 20 (0 : Fin 3 → ℝ))
        (List.replicate 20 (0 : Matrix (Fin 3) (Fin 3) ℝ))).splat.opacity_raw
      = wStateOpt.splat.opacity_raw ∧
    (inject_noise wStateOpt (List.replicate 20 (0 : Fin 3 → ℝ))
        (List.replicate 20 (0 : Matrix (Fin 3) (Fin 3) ℝ))).splat.means.length
      = wStateOpt.splat.means.length := by
  have h := C8_inject_noise wStateOpt wOptSt (List.replicate 20 (0 : Fin 3 → ℝ))
    (List.replicate 20 (0 : Matrix (Fin 3) (Fin 3) ℝ)) rfl
    (by simp [wStateOpt, wSplat20]) (by simp [wStateOpt, wSplat20])
    (by simp [wStateOpt, wSplat20])
  exact ⟨h.2.2.2.2.2.2.1, h.2.1⟩

/-! ## C7: scenario A -/

theorem getD_mem {α : Type} (l : List α) (j : ℕ) (hj : j < l.length) (d : α) :
    l.getD j d ∈ l := by
  rw [show l.getD j d = l.get ⟨j, hj⟩ from by
        simp [List.getD, List.getElem?_eq_getElem hj]]
  exact List.get_mem _ _ _

theorem lt_clampR (v c hi : ℝ) (hv : c < v) (hchi : c < hi) : c < clampR v c hi := by
  unfold clampR
  exact lt_min (lt_of_lt_of_le hv (le_max_left _ _)) hchi

theorem clampR_pos (v lo hi : ℝ) (hlo : 0 < lo) (hhi : 0 < hi) : 0 < clampR v lo hi := by
  unfold clampR
  exact lt_min (lt_of_lt_of_le hlo (le_max_right _ _)) hhi

theorem clampR_lt_one (v lo hi : ℝ) (hhi : hi < 1) : clampR v lo hi < 1 :=
  lt_of_le_of_lt (min_le_right _ _) hhi

/-- On the relocation branch (dead and alive both nonempty), `relocate_gs`
returns the dead count and performs: opacity/scale write-back at the sampled
indices, copy of all six fields from the sampled onto the dead indices, and
moment reset at the sampled indices. -/
theorem relocate_gs_eq {S0 SN : Type} [Zero S0] [Zero SN] [Inhabited S0] [Inhabited SN]
    (st : MCMCState S0 SN) (sampledLocal : List ℕ) (reloc : RelocFn)
    (hd : deadIndices st.splat.get_opacity st.params.min_opacity ≠ [])
    (ha : aliveIndices st.splat.get_opacity st.params.min_opacity ≠ []) :
    relocate_gs st sampledLocal reloc =
      ((deadIndices st.splat.get_opacity st.params.min_opacity).length,
       { splat :=
          { means := indexPut st.splat.means
              (deadIndices st.splat.get_opacity st.params.min_opacity)
              (indexSelect st.splat.means
                (indexSelect (aliveIndices st.splat.get_opacity st.params.min_opacity)
                  sampledLocal 0) default)
            sh0 := indexPut st.splat.sh0
              (deadIndices st.splat.get_opacity st.params.min_opacity)
              (indexSelect st.splat.sh0
                (indexSelect (aliveIndices st.splat.get_opacity st.params.min_opacity)
                  sampledLocal 0) default)
            shN := indexPut st.splat.shN
              (deadIndices st.splat.get_opacity st.params.min_opacity)
              (indexSelect st.splat.shN
                (indexSelect (aliveIndices st.splat.get_opacity st.params.min_opacity)
                  sampledLocal 0) default)
            scaling_raw := indexPut
              (indexPut st.splat.scaling_raw
                (indexSelect (aliveIndices st.splat.get_opacity st.params.min_opacity)
                  sampledLocal 0)
                ((reloc
                    (indexSelect st.splat.get_opacity
                      (indexSelect (aliveIndices st.splat.get_opacity st.params.min_opacity)
                        sampledLocal 0) 0)
                    (indexSelect st.splat.get_scaling
                      (indexSelect (aliveIndices st.splat.get_opacity st.params.min_opacity)
                        sampledLocal 0) default)
                    (calculate_relocation_ratios
                      (indexSelect (aliveIndices st.splat.get_opacity st.params.min_opacity)
                        sampledLocal 0)
                      st.splat.get_opacity.length st.binomsSize)).2.map
                  (fun v j => Real.log (v j))))
              (deadIndices st.splat.get_opacity st.params.min_opacity)
              (indexSelect
                (indexPut st.splat.scaling_raw
                  (indexSelect (aliveIndices st.splat.get_opacity st.params.min_opacity)
                    sampledLocal 0)
                  ((reloc
                      (indexSelect st.splat.get_opacity
                        (indexSelect (aliveIndices st.splat.get_opacity st.params.min_opacity)
                          sampledLocal 0) 0)
                      (indexSelect st.splat.get_scaling
                        (indexSelect (aliveIndices st.splat.get_opacity st.params.min_opacity)
                          sampledLocal 0) default)
                      (calculate_relocation_ratios
                        (indexSelect (aliveIndices st.splat.get_opacity st.params.min_opacity)
                          sampledLocal 0)
                        st.splat.get_opacity.length st.binomsSize)).2.map
                    (fun v j => Real.log (v j))))
                (indexSelect (aliveIndices st.splat.get_opacity st.params.min_opacity)
                  sampledLocal 0) default)
            rotation_raw := indexPut st.splat.rotation_raw
              (deadIndices st.splat.get_opacity st.params.min_opacity)
              (indexSelect st.splat.rotation_raw
                (indexSelect (aliveIndices st.splat.get_opacity st.params.min_opacity)
                  sampledLocal 0) default)
            opacity_raw := indexPut
              (update_opacity_raw st.splat.opacity_raw
                (indexSelect (aliveIndices st.splat.get_opacity st.params.min_opacity)
                  sampledLocal 0)
                (reloc
                    (indexSelect st.splat.get_opacity
                      (indexSelect (aliveIndices st.splat.get_opacity st.params.min_opacity)
                        sampledLocal 0) 0)
                    (indexSelect st.splat.get_scaling
                      (indexSelect (aliveIndices st.splat.get_opacity st.params.min_opacity)
                        sampledLocal 0) default)
                    (calculate_relocation_ratios
                      (indexSelect (aliveIndices st.splat.get_opacity st.params.min_opacity)
                        sampledLocal 0)
                      st.splat.get_opacity.length st.binomsSize)).1
                st.params.min_opacity)
              (deadIndices st.splat.get_opacity st.params.min_opacity)
              (indexSelect
                (update_opacity_raw st.splat.opacity_raw
                  (indexSelect (aliveIndices st.splat.get_opacity st.params.min_opacity)
                    sampledLocal 0)
                  (reloc
                      (indexSelect st.splat.get_opacity
                        (indexSelect (aliveIndices st.splat.get_opacity st.params.min_opacity)
                          sampledLocal 0) 0)
                      (indexSelect st.splat.get_scaling
                        (indexSelect (aliveIndices st.splat.get_opacity st.params.min_opacity)
                          sampledLocal 0) default)
                      (calculate_relocation_ratios
                        (indexSelect (aliveIndices st.splat.get_opacity st.params.min_opacity)
                          sampledLocal 0)
                        st.splat.get_opacity.length st.binomsSize)).1
                  st.params.min_opacity)
                (indexSelect (aliveIndices st.splat.get_opacity st.params.min_opacity)
                  sampledLocal 0) default) }
         opt := st.opt.map (fun o =>
          { o with
            stMeans := o.stMeans.map (resetAdamStateAt 0
              (indexSelect (aliveIndices st.splat.get_opacity st.params.min_opacity)
                sampledLocal 0))
            stSh0 := o.stSh0.map (resetAdamStateAt 0
              (indexSelect (aliveIndices st.splat.get_opacity st.params.min_opacity)
                sampledLocal 0))
            stShN := o.stShN.map (resetAdamStateAt 0
              (indexSelect (aliveIndices st.splat.get_opacity st.params.min_opacity)
                sampledLocal 0))
            stScaling := o.stScaling.map (resetAdamStateAt 0
              (indexSelect (aliveIndices st.splat.get_opacity st.params.min_opacity)
                sampledLocal 0))
            stRotation := o.stRotation.map (resetAdamStateAt 0
              (indexSelect (aliveIndices st.splat.get_opacity st.params.min_opacity)
                sampledLocal 0))
            stOpacity := o.stOpacity.map (resetAdamStateAt 0
              (indexSelect (aliveIndices st.splat.get_opacity st.params.min_opacity)
                sampledLocal 0)) })
         binomsSize := st.binomsSize
         params := st.params }) := by
  rw [show relocate_gs st sampledLocal reloc
      = if (deadIndices st.splat.get_opacity st.params.min_opacity).isEmpty then (0, st)
        else if (aliveIndices st.splat.get_opacity st.params.min_opacity).isEmpty then (0, st)
        else _ from rfl]
  rw [if_neg (by simpa [List.isEmpty_iff] using hd),
      if_neg (by simpa [List.isEmpty_iff] using ha)]

/-- Scenario A's raw opacities: N = 10 with activated opacities
`[0.001 ×5, 0.9 ×5]` stored in logit space. -/
noncomputable def scnA_raw : List ℝ :=
  [logit (1 / 1000), logit (1 / 1000), logit (1 / 1000), logit (1 / 1000), logit (1 / 1000),
   logit (9 / 10), logit (9 / 10), logit (9 / 10), logit (9 / 10), logit (9 / 10)]

/-- Scenario A's model state: arbitrary other fields of length 10, the
scenario opacities, any optimizer, any binomial-table size. -/
noncomputable def scnA_state {S0 SN : Type} (means : List (Fin 3 → ℝ)) (msh0 : List S0)
    (mshN : List SN) (mscal : List (Fin 3 → ℝ)) (mrot : List (Fin 4 → ℝ))
    (oopt : Option (Optimizer S0 SN)) (bs : ℕ) (pars : OptimizationParameters) :
    MCMCState S0 SN :=
  { splat :=
      { means := means
        sh0 := msh0
        shN := mshN
        scaling_raw := mscal
        rotation_raw := mrot
        opacity_raw := scnA_raw }
    opt := oopt
    binomsSize := bs
    params := pars }

/-- The copy phase `param[dead] = param[sampled]` with `dead = [0,1,2,3,4]` on
a length-10 field: row `j < 5` receives row `sampled[j]`, and rows `≥ 5`
(where the sampled indices live) are untouched. -/
theorem copy_at_dead {β : Type} [Inhabited β] (X : List β) (sampled : List ℕ)
    (hX10 : X.length = 10) (hslen : sampled.length = 5)
    (hrange : ∀ j, j < 5 → 5 ≤ sampled.getD j 0 ∧ sampled.getD j 0 < 10)
    (j : ℕ) (hj : j < 5) :
    (indexPut X [0, 1, 2, 3, 4] (indexSelect X sampled default)).getD j default
      = X.getD (sampled.getD j 0) default ∧
    (indexPut X [0, 1, 2, 3, 4]
        (indexSelect X sampled default)).getD (sampled.getD j 0) default
      = X.getD (sampled.getD j 0) default := by
  constructor
  · have hgj : [0, 1, 2, 3, 4].getD j 0 = j := by
      interval_cases j <;> rfl
    have h1 := getD_indexPut_nodup X [0, 1, 2, 3, 4] (indexSelect X sampled default)
      (by decide) (by simp [length_indexSelect, hslen]) j (by simp; omega)
      (by rw [hgj, hX10]; omega) default
    rw [hgj] at h1
    rw [h1, getD_indexSelect X sampled default j (by rw [hslen]; exact hj) default]
  · apply getD_indexPut_notMem
    have h5 := (hrange j hj).1
    intro hc
    simp only [List.mem_cons, List.not_mem_nil, or_false] at hc
    omega

/-- C7: new opacities coming back from the relocation transform are clamped
to `[min_opacity, 1 − 1e-7]` before the inverse sigmoid, so the stored raw
value never saturates at exactly 0 or 1; and on scenario A (N = 10,
activated opacities `[0.001 ×5, 0.9 ×5]`, `min_opacity = 0.005`, a sampler
draw of 5 alive-local indices, and a relocation transform whose output
opacities stay above the dead threshold, as the gsplat closed form does on
these inputs), `relocate_gs` identifies exactly rows 0–4 as dead, returns 5,
afterwards every one of the 10 rows has activated opacity strictly greater
than `min_opacity`, and each formerly-dead row's six field values equal those
of some (possibly repeated) sampled alive row after relocation. -/
theorem C7_scenario_A {S0 SN : Type} [Zero S0] [Zero SN] [Inhabited S0] [Inhabited SN]
    (means : List (Fin 3 → ℝ)) (msh0 : List S0) (mshN : List SN)
    (mscal : List (Fin 3 → ℝ)) (mrot : List (Fin 4 → ℝ))
    (oopt : Option (Optimizer S0 SN)) (bs : ℕ) (pars : OptimizationParameters)
    (hm : means.length = 10) (hsh0 : msh0.length = 10) (hshN : mshN.length = 10)
    (hscal : mscal.length = 10) (hrot : mrot.length = 10)
    (hmin : pars.min_opacity = 5 / 1000)
    (sampledLocal : List ℕ) (hsl : sampledLocal.length = 5)
    (hslv : ∀ i ∈ sampledLocal, i < 5)
    (reloc : RelocFn)
    (hreloc : ∀ ops scs rts, ∀ v ∈ (reloc ops scs rts).1, 5 / 1000 < v) :
    (∀ v : ℝ,
      0 < clampR v pars.min_opacity (1 - MIN_OPACITY_CLAMP) ∧
      clampR v pars.min_opacity (1 - MIN_OPACITY_CLAMP) < 1 ∧
      sigmoid (logit (clampR v pars.min_opacity (1 - MIN_OPACITY_CLAMP)))
        = clampR v pars.min_opacity (1 - MIN_OPACITY_CLAMP)) ∧
    deadIndices (scnA_state means msh0 mshN mscal mrot oopt bs pars).splat.get_opacity
        pars.min_opacity = [0, 1, 2, 3, 4] ∧
    (relocate_gs (scnA_state means msh0 mshN mscal mrot oopt bs pars)
        sampledLocal reloc).1 = 5 ∧
    (∀ j, j < 10 → pars.min_opacity <
      sigmoid ((relocate_gs (scnA_state means msh0 mshN mscal mrot oopt bs pars)
        sampledLocal reloc).2.splat.opacity_raw.getD j default)) ∧
    (∀ j, j < 5 → ∃ s,
      s ∈ indexSelect
            (aliveIndices
              (scnA_state means msh0 mshN mscal mrot oopt bs pars).splat.get_opacity
              pars.min_opacity) sampledLocal 0 ∧
      5 ≤ s ∧ s < 10 ∧
      (relocate_gs (scnA_state means msh0 mshN mscal mrot oopt bs pars)
          sampledLocal reloc).2.splat.means.getD j default
        = (relocate_gs (scnA_state means msh0 mshN mscal mrot oopt bs pars)
          sampledLocal reloc).2.splat.means.getD s default ∧
      (relocate_gs (scnA_state means msh0 mshN mscal mrot oopt bs pars)
          sampledLocal reloc).2.splat.sh0.getD j default
        = (relocate_gs (scnA_state means msh0 mshN mscal mrot oopt bs pars)
          sampledLocal reloc).2.splat.sh0.getD s default ∧
      (relocate_gs (scnA_state means msh0 mshN mscal mrot oopt bs pars)
          sampledLocal reloc).2.splat.shN.getD j default
        = (relocate_gs (scnA_state means msh0 mshN mscal mrot oopt bs pars)
          sampledLocal reloc).2.splat.shN.getD s default ∧
      (relocate_gs (scnA_state means msh0 mshN mscal mrot oopt bs pars)
          sampledLocal reloc).2.splat.scaling_raw.getD j default
        = (relocate_gs (scnA_state means msh0 mshN mscal mrot oopt bs pars)
          sampledLocal reloc).2.splat.scaling_raw.getD s default ∧
      (relocate_gs (scnA_state means msh0 mshN mscal mrot oopt bs pars)
          sampledLocal reloc).2.splat.rotation_raw.getD j default
        = (relocate_gs (scnA_state means msh0 mshN mscal mrot oopt bs pars)
          sampledLocal reloc).2.splat.rotation_raw.getD s default ∧
      (relocate_gs (scnA_state means msh0 mshN mscal mrot oopt bs pars)
          sampledLocal reloc).2.splat.opacity_raw.getD j default
        = (relocate_gs (scnA_state means msh0 mshN mscal mrot oopt bs pars)
          sampledLocal reloc).2.splat.opacity_raw.getD s default) := by
  have e1 : sigmoid (logit ((1 : ℝ) / 1000)) = 1 / 1000 :=
    sigmoid_logit _ (by norm_num) (by norm_num)
  have e1i : sigmoid (logit (((1000 : ℝ))⁻¹)) = (1000 : ℝ)⁻¹ :=
    sigmoid_logit _ (by norm_num) (by norm_num)
  have e2 : sigmoid (logit ((9 : ℝ) / 10)) = 9 / 10 :=
    sigmoid_logit _ (by norm_num) (by norm_num)
  have hops : (scnA_state means msh0 mshN mscal mrot oopt bs pars).splat.get_opacity
      = [1 / 1000, 1 / 1000, 1 / 1000, 1 / 1000, 1 / 1000,
         9 / 10, 9 / 10, 9 / 10, 9 / 10, 9 / 10] := by
    simp [scnA_state, SplatData.get_opacity, scnA_raw, e1, e1i, e2]
  have hdead : deadIndices
      (scnA_state means msh0 mshN mscal mrot oopt bs pars).splat.get_opacity
      pars.min_opacity = [0, 1, 2, 3, 4] := by
    rw [hops, hmin]
    unfold deadIndices
    rw [show List.length [(1 : ℝ) / 1000, 1 / 1000, 1 / 1000, 1 / 1000, 1 / 1000,
          9 / 10, 9 / 10, 9 / 10, 9 / 10, 9 / 10] = 10 from rfl]
    rw [show List.range 10 = [0, 1, 2, 3, 4, 5, 6, 7, 8, 9] from by decide]
    norm_num [List.filter, List.getD]
  have halive : aliveIndices
      (scnA_state means msh0 mshN mscal mrot oopt bs pars).splat.get_opacity
      pars.min_opacity = [5, 6, 7, 8, 9] := by
    rw [hops, hmin]
    unfold aliveIndices
    rw [show List.length [(1 : ℝ) / 1000, 1 / 1000, 1 / 1000, 1 / 1000, 1 / 1000,
          9 / 10, 9 / 10, 9 / 10, 9 / 10, 9 / 10] = 10 from rfl]
    rw [show List.range 10 = [0, 1, 2, 3, 4, 5, 6, 7, 8, 9] from by decide]
    norm_num [List.filter, List.getD]
  have hpars : (scnA_state means msh0 mshN mscal mrot oopt bs pars).params = pars := rfl
  have hkey := relocate_gs_eq (scnA_state means msh0 mshN mscal mrot oopt bs pars)
    sampledLocal reloc (by rw [hpars, hdead]; simp) (by rw [hpars, halive]; simp)
  rw [hpars] at hkey
  rw [hdead, halive] at hkey
  rw [hmin] at hkey
  rw [show (scnA_state means msh0 mshN mscal mrot oopt bs pars).splat.opacity_raw
        = scnA_raw from rfl,
      show (scnA_state means msh0 mshN mscal mrot oopt bs pars).splat.means
        = means from rfl,
      show (scnA_state means msh0 mshN mscal mrot oopt bs pars).splat.sh0
        = msh0 from rfl,
      show (scnA_state means msh0 mshN mscal mrot oopt bs pars).splat.shN
        = mshN from rfl,
      show (scnA_state means msh0 mshN mscal mrot oopt bs pars).splat.scaling_raw
        = mscal from rfl,
      show (scnA_state means msh0 mshN mscal mrot oopt bs pars).splat.rotation_raw
        = mrot from rfl,
      show (scnA_state means msh0 mshN mscal mrot oopt bs pars).binomsSize
        = bs from rfl,
      show (scnA_state means msh0 mshN mscal mrot oopt bs pars).opt
        = oopt from rfl] at hkey
  -- shorthand names for the sampled indices and relocation outputs
  set sampled : List ℕ := indexSelect [5, 6, 7, 8, 9] sampledLocal 0 with hsampdef
  have hsampLen : sampled.length = 5 := by
    rw [hsampdef, length_indexSelect, hsl]
  have hsampRange : ∀ j, j < 5 → 5 ≤ sampled.getD j 0 ∧ sampled.getD j 0 < 10 := by
    intro j hj
    rw [hsampdef, getD_indexSelect _ _ _ j (by rw [hsl]; exact hj) 0]
    have hi : sampledLocal.getD j 0 < 5 :=
      hslv _ (getD_mem _ j (by rw [hsl]; exact hj) 0)
    set i := sampledLocal.getD j 0 with hidef
    interval_cases i <;> norm_num [List.getD]
  have hsampMem : ∀ j, j < 5 → sampled.getD j 0 ∈ sampled := by
    intro j hj
    exact getD_mem _ j (by rw [hsampLen]; exact hj) 0
  refine ⟨?_, hdead, ?_, ?_, ?_⟩
  · intro v
    rw [hmin]
    exact ⟨clampR_pos _ _ _ (by norm_num) (by norm_num [MIN_OPACITY_CLAMP]),
      clampR_lt_one _ _ _ (by norm_num [MIN_OPACITY_CLAMP]),
      sigmoid_logit _ (clampR_pos _ _ _ (by norm_num) (by norm_num [MIN_OPACITY_CLAMP]))
        (clampR_lt_one _ _ _ (by norm_num [MIN_OPACITY_CLAMP]))⟩
  · rw [hkey]
    rfl
  · -- every row's activated opacity exceeds the threshold afterwards
    intro j hj
    rw [hmin, hkey]
    dsimp only
    set nops : List ℝ := (reloc
      (indexSelect (scnA_state means msh0 mshN mscal mrot oopt bs pars).splat.get_opacity
        sampled 0)
      (indexSelect (scnA_state means msh0 mshN mscal mrot oopt bs pars).splat.get_scaling
        sampled default)
      (calculate_relocation_ratios sampled
        (scnA_state means msh0 mshN mscal mrot oopt bs pars).splat.get_opacity.length
        bs)).1 with hnopsdef
    have hnops : ∀ v ∈ nops, 5 / 1000 < v := by
      intro v hv
      exact hreloc _ _ _ v (by rw [hnopsdef] at hv; exact hv)
    have hopac1len : (update_opacity_raw scnA_raw sampled nops (5 / 1000)).length = 10 := by
      rw [update_opacity_raw, length_indexPut]
      rfl
    have hE : ∀ i, 5 ≤ i → i < 10 →
        5 / 1000 < sigmoid ((update_opacity_raw scnA_raw sampled nops
          (5 / 1000)).getD i default) := by
      intro i h5 h10
      rw [update_opacity_raw]
      rcases getD_indexPut_mem_or scnA_raw sampled
          ((nops.map (fun x => clampR x (5 / 1000) (1 - MIN_OPACITY_CLAMP))).map logit)
          i default with hold | ⟨v, hvmem, hval⟩
      · rw [hold]
        rw [show scnA_raw.getD i default = logit (9 / 10) from by
              unfold scnA_raw
              interval_cases i <;> rfl]
        rw [e2]
        norm_num
      · rw [hval]
        simp only [List.mem_map] at hvmem
        obtain ⟨v0, hv0, rfl⟩ := hvmem
        obtain ⟨v1, hv1, rfl⟩ := hv0
        rw [sigmoid_logit _
          (clampR_pos _ _ _ (by norm_num) (by norm_num [MIN_OPACITY_CLAMP]))
          (clampR_lt_one _ _ _ (by norm_num [MIN_OPACITY_CLAMP]))]
        exact lt_clampR _ _ _ (hnops v1 hv1) (by norm_num [MIN_OPACITY_CLAMP])
    by_cases hj5 : j < 5
    · have hcopy := copy_at_dead (update_opacity_raw scnA_raw sampled nops (5 / 1000))
        sampled hopac1len hsampLen hsampRange j hj5
      rw [hcopy.1]
      exact hE _ (hsampRange j hj5).1 (hsampRange j hj5).2
    · have hnot : j ∉ [0, 1, 2, 3, 4] := by
        intro hc
        simp only [List.mem_cons, List.not_mem_nil, or_false] at hc
        omega
      rw [getD_indexPut_notMem _ _ _ j default hnot]
      exact hE j (by omega) hj
  · -- formerly-dead rows equal some sampled alive row
    intro j hj
    refine ⟨sampled.getD j 0, ?_, (hsampRange j hj).1, (hsampRange j hj).2, ?_, ?_, ?_, ?_, ?_, ?_⟩
    · rw [halive]
      exact hsampMem j hj
    all_goals rw [hkey]
    all_goals dsimp only
    · have hcopy := copy_at_dead means sampled hm hsampLen hsampRange j hj
      rw [hcopy.1, hcopy.2]
    · have hcopy := copy_at_dead msh0 sampled hsh0 hsampLen hsampRange j hj
      rw [hcopy.1, hcopy.2]
    · have hcopy := copy_at_dead mshN sampled hshN hsampLen hsampRange j hj
      rw [hcopy.1, hcopy.2]
    · have hcopy := copy_at_dead
        (indexPut mscal sampled
          ((reloc
            (indexSelect
              (scnA_state means msh0 mshN mscal mrot oopt bs pars).splat.get_opacity
              sampled 0)
            (indexSelect
              (scnA_state means msh0 mshN mscal mrot oopt bs pars).splat.get_scaling
              sampled default)
            (calculate_relocation_ratios sampled
              (scnA_state means msh0 mshN mscal mrot oopt bs pars).splat.get_opacity.length
              bs)).2.map (fun v c => Real.log (v c))))
        sampled (by rw [length_indexPut, hscal]) hsampLen hsampRange j hj
      rw [hcopy.1, hcopy.2]
    · have hcopy := copy_at_dead mrot sampled hrot hsampLen hsampRange j hj
      rw [hcopy.1, hcopy.2]
    · have hcopy := copy_at_dead
        (update_opacity_raw scnA_raw sampled
          ((reloc
            (indexSelect
              (scnA_state means msh0 mshN mscal mrot oopt bs pars).splat.get_opacity
              sampled 0)
            (indexSelect
              (scnA_state means msh0 mshN mscal mrot oopt bs pars).splat.get_scaling
              sampled default)
            (calculate_relocation_ratios sampled
              (scnA_state means msh0 mshN mscal mrot oopt bs pars).splat.get_opacity.length
              bs)).1) (5 / 1000))
        sampled (by rw [update_opacity_raw, length_indexPut]; rfl) hsampLen hsampRange j hj
      rw [hcopy.1, hcopy.2]

theorem C7_scenario_A_witness :
    deadIndices
        (scnA_state (List.replicate 10 (0 : Fin 3 → ℝ)) (List.replicate 10 (0 : ℝ))
          (List.replicate 10 (0 : ℝ)) (List.replicate 10 (0 : Fin 3 → ℝ))
          (List.replicate 10 (0 : Fin 4 → ℝ)) none BINOMIAL_MAX_N wParams).splat.get_opacity
        wParams.min_opacity = [0, 1, 2, 3, 4] ∧
    (relocate_gs
        (scnA_state (List.replicate 10 (0 : Fin 3 → ℝ)) (List.replicate 10 (0 : ℝ))
          (List.replicate 10 (0 : ℝ)) (List.replicate 10 (0 : Fin 3 → ℝ))
          (List.replicate 10 (0 : Fin 4 → ℝ)) none BINOMIAL_MAX_N wParams)
        [0, 1, 2, 3, 4] wReloc).1 = 5 ∧
    wParams.min_opacity < sigmoid ((relocate_gs
        (scnA_state (List.replicate 10 (0 : Fin 3 → ℝ)) (List.replicate 10 (0 : ℝ))
          (List.replicate 10 (0 : ℝ)) (List.replicate 10 (0 : Fin 3 → ℝ))
          (List.replicate 10 (0 : Fin 4 → ℝ)) none BINOMIAL_MAX_N wParams)
        [0, 1, 2, 3, 4] wReloc).2.splat.opacity_raw.getD 0 default) := by
  have h := C7_scenario_A (List.replicate 10 (0 : Fin 3 → ℝ)) (List.replicate 10 (0 : ℝ))
    (List.replicate 10 (0 : ℝ)) (List.replicate 10 (0 : Fin 3 → ℝ))
    (List.replicate 10 (0 : Fin 4 → ℝ)) none BINOMIAL_MAX_N wParams
    (by simp) (by simp) (by simp) (by simp) (by simp) rfl
    [0, 1, 2, 3, 4] rfl (by decide) wReloc
    (by
      intro ops scs rts v hv
      simp [wReloc] at hv)
  exact ⟨h.2.1, h.2.2.1, h.2.2.2.1 0 (by norm_num)⟩

end GSMCMC
